import Mathlib

/-!
# SeaBIOS `src/block.c`: disk geometry translation, drive mapping, dispatch

A shallow embedding of `block.c`: the geometry translation
(`get_translation`, `setup_translation`), the drive mapping (`fill_fdpt`,
`map_hd_drive`, `map_cd_drive`, `map_floppy_drive`, `drive_setup`) as
functions on an explicit machine state, and the request dispatch
(`process_op`, `__send_disk_op`), together with theorems about them.

Machine integers are natural numbers; a value stored into a C variable of
type `u8`, `u16`, `u32` or `u64` is reduced modulo `2^8`, `2^16`, `2^32`
or `2^64` at the point where the C code stores it.
-/

namespace Block

/-! ## Machine integer casts -/

/-- Value of a natural number after a store to a C `u8`. -/
def u8 (x : Nat) : Nat := x % 256

/-- Value of a natural number after a store to a C `u16`. -/
def u16 (x : Nat) : Nat := x % 65536

/-- Value of a natural number after a store to a C `u32`. -/
def u32 (x : Nat) : Nat := x % 4294967296

/-- Value of a natural number after a store to a C `u64`. -/
def u64 (x : Nat) : Nat := x % 18446744073709551616

/-- Value of the exact result `x` of an arithmetic operation carried out in
the C type `int` (32 bits, two's complement) on the 32-bit x86 target: the
low 32 bits of `x`, read as a signed number. C leaves a result outside the
range of `int` undefined; this is the value the multiply instruction of the
target leaves in the register. -/
def int32 (x : Nat) : Int :=
  if x % 4294967296 < 2147483648 then (x % 4294967296 : Nat)
  else ((x % 4294967296 : Nat) : Int) - 4294967296

/-! ## Constants of the headers `disk.h` and `cmos.h` -/

/-- Modelled from the spec: `disk.h` is not among the sources; policy
code "None" (`TRANSLATION_NONE`), numbered as in the SeaBIOS header. -/
def TRANSLATION_NONE : Nat := 0

/-- Modelled from the spec: `disk.h` is not among the sources; policy
code "LBA" (`TRANSLATION_LBA`), numbered as in the SeaBIOS header. -/
def TRANSLATION_LBA : Nat := 1

/-- Modelled from the spec: `disk.h` is not among the sources; policy
code "LargeCHS" (`TRANSLATION_LARGE`), numbered as in the SeaBIOS header. -/
def TRANSLATION_LARGE : Nat := 2

/-- Modelled from the spec: `disk.h` is not among the sources; policy
code "LegacyExtendedCHS" (`TRANSLATION_RECHS`), numbered as in the SeaBIOS
header. -/
def TRANSLATION_RECHS : Nat := 3

/-- Modelled from the spec: `disk.h` is not among the sources; device
class "ATA" (`DTYPE_ATA`), numbered as in the SeaBIOS header. -/
def DTYPE_ATA : Nat := 2

/-- Modelled from the spec: `cmos.h` is not among the sources; the
"baseOffset" of the configuration bytes holding the translation fields
(`CMOS_BIOS_DISKTRANSFLAG`), numbered as in the SeaBIOS header. -/
def CMOS_BIOS_DISKTRANSFLAG : Nat := 57

/-! ## Data model -/

/-- Cylinder/head/sector geometry, `struct chs_s`. -/
structure chs_s where
  heads : Nat
  cylinders : Nat
  spt : Nat
deriving DecidableEq

/-- The fields of `struct drive_s` that `block.c` reads and writes. -/
structure drive_s where
  type : Nat
  cntl_id : Nat
  translation : Nat
  sectors : Nat
  lchs : chs_s
  pchs : chs_s
deriving DecidableEq

/-! ## Disk geometry translation -/

/-- The heuristic of `get_translation` (the code after the nvram branch),
on the physical geometry read into `u16` locals. The product
`cylinders * heads` is computed in `int` after integer promotion. -/
def get_translation_heuristic (pchs : chs_s) : Nat :=
  let heads := u16 pchs.heads
  let cylinders := u16 pchs.cylinders
  let spt := u16 pchs.spt
  if cylinders ≤ 1024 ∧ heads ≤ 16 ∧ spt ≤ 63 then
    TRANSLATION_NONE
  else if int32 (cylinders * heads) ≤ 131072 then
    TRANSLATION_LARGE
  else
    TRANSLATION_LBA

/-- Function `get_translation` for the drive record `d =
Drives.drives[driveid]`; `coreboot` is `CONFIG_COREBOOT` and `inb_cmos`
reads a byte of the nvram. -/
def get_translation (coreboot : Bool) (inb_cmos : Nat → Nat) (d : drive_s) : Nat :=
  let type := u8 d.type
  if coreboot = false ∧ type = DTYPE_ATA then
    let ataid := u8 d.cntl_id
    let channel := u8 (ataid / 2)
    let translation := u8 (inb_cmos (CMOS_BIOS_DISKTRANSFLAG + channel / 2))
    let translation := u8 (translation >>> (2 * (ataid % 4)))
    let translation := u8 (translation &&& 3)
    translation
  else
    get_translation_heuristic d.pchs

/-- The `while` loop of the `TRANSLATION_LARGE` case, on the `u16` locals
`cylinders` and `heads`; it returns `(cylinders, heads)` on exit. The loop
is entered only while `cylinders > 1024`, and each pass halves `cylinders`,
so the recursion terminates. -/
def large_loop (cylinders heads : Nat) : Nat × Nat :=
  if cylinders > 1024 then
    let cylinders1 := u16 (cylinders >>> 1)
    let heads1 := u16 (heads <<< 1)
    if heads1 > 127 then
      (cylinders1, heads1)
    else
      large_loop cylinders1 heads1
  else
    (cylinders, heads)
termination_by cylinders
decreasing_by
  simp only [u16, Nat.shiftRight_eq_div_pow]
  have := Nat.mod_le (cylinders / 2 ^ 1) 65536
  omega

/-- The successive values of the local `heads` during the `while` loop of
the `TRANSLATION_LARGE` case: the value on entry, then the value after each
`heads <<= 1`, in order. Same control flow as `large_loop`. -/
def large_loop_heads (cylinders heads : Nat) : List Nat :=
  if cylinders > 1024 then
    let cylinders1 := u16 (cylinders >>> 1)
    let heads1 := u16 (heads <<< 1)
    if heads1 > 127 then
      [heads, heads1]
    else
      heads :: large_loop_heads cylinders1 heads1
  else
    [heads]
termination_by cylinders
decreasing_by
  simp only [u16, Nat.shiftRight_eq_div_pow]
  have := Nat.mod_le (cylinders / 2 ^ 1) 65536
  omega

/-- The `if`/`else if` chain of the `TRANSLATION_LBA` case that replaces
`heads = sect / 1024` by one of 16, 32, 64, 128, 255. -/
def lba_heads (heads : Nat) : Nat :=
  if heads > 128 then 255
  else if heads > 64 then 128
  else if heads > 32 then 64
  else if heads > 16 then 32
  else 16

/-- Case `TRANSLATION_LBA` of the `switch`; `l` holds the locals `heads`,
`cylinders`, `spt` and `sectors` is the `u64` local. -/
def case_lba (sectors : Nat) (_l : chs_s) : chs_s :=
  if sectors > 63 * 255 * 1024 then
    { heads := 255, cylinders := 1024, spt := 63 }
  else
    let sect := u32 (u32 sectors / 63)
    let heads := lba_heads (u16 (sect / 1024))
    { heads := heads, cylinders := u16 (sect / heads), spt := 63 }

/-- The adjustment at the head of case `TRANSLATION_RECHS`, before the
fall through into case `TRANSLATION_LARGE`. -/
def rechs_adjust (l : chs_s) : chs_s :=
  if l.heads = 16 then
    let cylinders := if l.cylinders > 61439 then 61439 else l.cylinders
    { heads := 15, cylinders := u16 (u32 (u32 cylinders * 16) / 15), spt := l.spt }
  else
    l

/-- Case `TRANSLATION_LARGE` of the `switch`: the `while` loop. -/
def case_large (l : chs_s) : chs_s :=
  let r := large_loop l.cylinders l.heads
  { heads := r.2, cylinders := r.1, spt := l.spt }

/-- The `switch (translation)` of `setup_translation` on the locals
`heads`, `cylinders`, `spt`. There is no `default:` label, so any other
code leaves the locals as they are. -/
def translation_switch (translation sectors : Nat) (l : chs_s) : chs_s :=
  if translation = TRANSLATION_NONE then l
  else if translation = TRANSLATION_LBA then case_lba sectors l
  else if translation = TRANSLATION_RECHS then case_large (rechs_adjust l)
  else if translation = TRANSLATION_LARGE then case_large l
  else l

/-- The statement `if (cylinders > 1024) cylinders = 1024;` that follows the
`switch`. -/
def clip_cylinders (l : chs_s) : chs_s :=
  if l.cylinders > 1024 then { l with cylinders := 1024 } else l

/-- The part of `setup_translation` after the call of `get_translation`,
`translation` being the `u8` local: the physical geometry and the sector
count are read into `u16` and `u64` locals, then the `switch` and the clip
run; the result is the geometry stored into `lchs`. -/
def setup_translation_lchs (translation : Nat) (pchs : chs_s) (sectors : Nat) : chs_s :=
  let l : chs_s :=
    { heads := u16 pchs.heads, cylinders := u16 pchs.cylinders, spt := u16 pchs.spt }
  clip_cylinders (translation_switch translation (u64 sectors) l)

/-- Function `setup_translation` for the drive record `d =
Drives.drives[driveid]`: it stores the policy code and the legacy geometry. -/
def setup_translation (coreboot : Bool) (inb_cmos : Nat → Nat) (d : drive_s) : drive_s :=
  let translation := u8 (get_translation coreboot inb_cmos d)
  { d with
    translation := translation
    lchs := setup_translation_lchs translation d.pchs d.sectors }

/-! ## Drive mapping: constants and declarations of absent headers -/

/-- Modelled from the spec: `disk.h` is not among the sources; row of
`Drives.idmap` for the floppy class (`EXTTYPE_FLOPPY`), numbered as in the
SeaBIOS header. -/
def EXTTYPE_FLOPPY : Nat := 0

/-- Modelled from the spec: `disk.h` is not among the sources; row of
`Drives.idmap` for the fixed disk class (`EXTTYPE_HD`), numbered as in the
SeaBIOS header. -/
def EXTTYPE_HD : Nat := 1

/-- Modelled from the spec: `disk.h` is not among the sources; row of
`Drives.idmap` for the optical class (`EXTTYPE_CD`), numbered as in the
SeaBIOS header. -/
def EXTTYPE_CD : Nat := 2

/-- Modelled from the spec: `disk.h` is not among the sources; device
class "Floppy" (`DTYPE_FLOPPY`), numbered as in the SeaBIOS header. -/
def DTYPE_FLOPPY : Nat := 1

/-- Modelled from the spec: `disk.h` is not among the sources; device
class "ATAPI" (`DTYPE_ATAPI`), numbered as in the SeaBIOS header. -/
def DTYPE_ATAPI : Nat := 3

/-- Modelled from the spec: `disk.h` is not among the sources; device
class "RAMDisk" (`DTYPE_RAMDISK`), numbered as in the SeaBIOS header. -/
def DTYPE_RAMDISK : Nat := 4

/-- Modelled from the spec: `disk.h` is not among the sources; the status
"invalid parameter" (`DISK_RET_EPARAM`), numbered as in the SeaBIOS header. -/
def DISK_RET_EPARAM : Int := 1

/-- Values that `block.c` takes from its environment: the number of
entries of a row of `Drives.idmap` (`ARRAY_SIZE(Drives.idmap[0])`), the
segment `get_ebda_seg()` returns, and the offsets
`offsetof(struct extended_bios_data_area_s, fdpt[i])`. -/
structure platform_s where
  max_extdrive : Nat
  ebda_seg : Nat
  fdpt_offset : Nat → Nat

/-- Modelled from the spec: `struct fdpt_s` is declared in a header that is
not among the sources; the Fixed Disk Parameter Table descriptor, 16 bytes,
with the fields `fill_fdpt` writes, the `reserved` byte and the `checksum`
byte; `cylinders`, `precompensation`, `phys_cylinders` and `landing_zone`
are `u16`, the other fields are `u8`. -/
structure fdpt_s where
  cylinders : Nat
  heads : Nat
  a0h_signature : Nat
  phys_sectors : Nat
  precompensation : Nat
  reserved : Nat
  drive_control_byte : Nat
  phys_cylinders : Nat
  phys_heads : Nat
  landing_zone : Nat
  sectors : Nat
  checksum : Nat
deriving DecidableEq

/-- The bytes of a descriptor in memory, in the order of the fields, `u16`
fields low byte first. -/
def fdpt_bytes (f : fdpt_s) : List Nat :=
  [u16 f.cylinders % 256, u16 f.cylinders / 256,
   u8 f.heads,
   u8 f.a0h_signature,
   u8 f.phys_sectors,
   u16 f.precompensation % 256, u16 f.precompensation / 256,
   u8 f.reserved,
   u8 f.drive_control_byte,
   u16 f.phys_cylinders % 256, u16 f.phys_cylinders / 256,
   u8 f.phys_heads,
   u16 f.landing_zone % 256, u16 f.landing_zone / 256,
   u8 f.sectors,
   u8 f.checksum]

/-- Modelled from the spec: the helper `checksum` is defined in a file
that is not among the sources; the byte sum of a memory area, as a `u8`. -/
def checksum (bytes : List Nat) : Nat := u8 bytes.sum

/-- The fields of `struct drives_s` (the global `Drives`) that `block.c`
uses; arrays are functions of the index. -/
structure drives_s where
  drives : Nat → drive_s
  floppycount : Nat
  cdcount : Nat
  idmap : Nat → Nat → Nat

/-- The fields of the BIOS data area that `block.c` uses. -/
structure bios_data_area_s where
  hdcount : Nat
  equipment_list_flags : Nat
  floppy_harddisk_info : Nat
deriving DecidableEq

/-- The memory `block.c` works on: the global `Drives`, the BIOS data
area, the array `fdpt` of the extended BIOS data area, and the interrupt
vector table (segment and offset per vector). -/
structure machine_s where
  Drives : drives_s
  bda : bios_data_area_s
  fdpt : Nat → fdpt_s
  ivt : Nat → Nat × Nat

/-- Store `v` into `Drives.idmap[t][i]`. -/
def set_idmap (D : drives_s) (t i v : Nat) : drives_s :=
  { D with idmap := fun t2 i2 => if t2 = t ∧ i2 = i then v else D.idmap t2 i2 }

/-! ## Drive mapping -/

/-- The statement `fdpt->checksum -= checksum(fdpt, sizeof(*fdpt));`. -/
def fdpt_set_checksum (f : fdpt_s) : fdpt_s :=
  { f with checksum := u8 (u8 f.checksum + 256 - checksum (fdpt_bytes f)) }

/-- Function `fill_fdpt`; its parameter `driveid` indexes both
`Drives.drives` and the array `fdpt`. -/
def fill_fdpt (pf : platform_s) (s : machine_s) (driveid : Nat) : machine_s :=
  if driveid > 1 then s
  else
    let nlc := u16 (s.Drives.drives driveid).lchs.cylinders
    let nlh := u16 (s.Drives.drives driveid).lchs.heads
    let nlspt := u16 (s.Drives.drives driveid).lchs.spt
    let npc := u16 (s.Drives.drives driveid).pchs.cylinders
    let nph := u16 (s.Drives.drives driveid).pchs.heads
    let npspt := u16 (s.Drives.drives driveid).pchs.spt
    let fdpt1 : fdpt_s :=
      { s.fdpt driveid with
        precompensation := 65535
        drive_control_byte := u8 (192 ||| ((if nph > 8 then 1 else 0) <<< 3))
        landing_zone := npc
        cylinders := nlc
        heads := u8 nlh
        sectors := u8 nlspt }
    if nlc = npc ∧ nlh = nph ∧ nlspt = npspt then
      { s with fdpt := fun i => if i = driveid then fdpt1 else s.fdpt i }
    else
      let fdpt2 : fdpt_s :=
        { fdpt1 with
          phys_cylinders := npc
          phys_heads := u8 nph
          phys_sectors := u8 npspt
          a0h_signature := 160 }
      let fdpt3 : fdpt_s := fdpt_set_checksum fdpt2
      let vector := if driveid = 0 then 65 else 70
      { s with
        fdpt := fun i => if i = driveid then fdpt3 else s.fdpt i
        ivt := fun v =>
          if v = vector then (pf.ebda_seg, pf.fdpt_offset driveid) else s.ivt v }

/-- Function `map_hd_drive`. -/
def map_hd_drive (pf : platform_s) (s : machine_s) (driveid : Nat) : machine_s :=
  let hdcount := u8 s.bda.hdcount
  if hdcount ≥ pf.max_extdrive then s
  else
    let s1 : machine_s :=
      { s with Drives := set_idmap s.Drives EXTTYPE_HD hdcount (u8 driveid) }
    let s2 : machine_s := { s1 with bda := { s1.bda with hdcount := u8 (hdcount + 1) } }
    fill_fdpt pf s2 hdcount

/-- Function `map_cd_drive`. -/
def map_cd_drive (pf : platform_s) (s : machine_s) (driveid : Nat) : machine_s :=
  let cdcount := u8 s.Drives.cdcount
  if cdcount ≥ pf.max_extdrive then s
  else
    let s1 : machine_s :=
      { s with Drives := set_idmap s.Drives EXTTYPE_CD cdcount (u8 driveid) }
    { s1 with Drives := { s1.Drives with cdcount := u8 (cdcount + 1) } }

/-- Function `map_floppy_drive`. -/
def map_floppy_drive (pf : platform_s) (s : machine_s) (driveid : Nat) : machine_s :=
  let floppycount := u8 s.Drives.floppycount
  if floppycount ≥ pf.max_extdrive then s
  else
    let s1 : machine_s :=
      { s with Drives := set_idmap s.Drives EXTTYPE_FLOPPY floppycount (u8 driveid) }
    let floppycount1 := u8 (floppycount + 1)
    let s2 : machine_s := { s1 with Drives := { s1.Drives with floppycount := floppycount1 } }
    if floppycount1 = 1 then
      { s2 with
        bda :=
          { s2.bda with
            equipment_list_flags := u16 (u16 s2.bda.equipment_list_flags ||| 1)
            floppy_harddisk_info := 7 } }
    else
      { s2 with
        bda :=
          { s2.bda with
            equipment_list_flags := u16 (u16 s2.bda.equipment_list_flags ||| 65)
            floppy_harddisk_info := 119 } }

/-- Function `drive_setup`: `Drives` is zeroed, then every byte of
`Drives.idmap` is set to 0xff. -/
def drive_setup (s : machine_s) : machine_s :=
  { s with
    Drives :=
      { drives := fun _ =>
          { type := 0, cntl_id := 0, translation := 0, sectors := 0,
            lchs := { heads := 0, cylinders := 0, spt := 0 },
            pchs := { heads := 0, cylinders := 0, spt := 0 } }
        floppycount := 0
        cdcount := 0
        idmap := fun _ _ => 255 } }

/-- One call of a mapping function, with its argument `driveid`. -/
inductive map_call where
  | floppy (driveid : Nat)
  | cd (driveid : Nat)
  | hd (driveid : Nat)
deriving DecidableEq

/-- Row of `Drives.idmap` that a call writes. -/
def map_call.exttype : map_call → Nat
  | .floppy _ => EXTTYPE_FLOPPY
  | .cd _ => EXTTYPE_CD
  | .hd _ => EXTTYPE_HD

/-- Argument of a call. -/
def map_call.driveid : map_call → Nat
  | .floppy d => d
  | .cd d => d
  | .hd d => d

/-- Run one call of a mapping function. -/
def run_call (pf : platform_s) (s : machine_s) : map_call → machine_s
  | .floppy d => map_floppy_drive pf s d
  | .cd d => map_cd_drive pf s d
  | .hd d => map_hd_drive pf s d

/-- Run a sequence of calls of the mapping functions, first call first. -/
def run_calls (pf : platform_s) (s : machine_s) (cs : List map_call) : machine_s :=
  cs.foldl (run_call pf) s

/-- The drive ids registered for the class with row `t`, in call order. -/
def class_ids (t : Nat) (cs : List map_call) : List Nat :=
  (cs.filter (fun c => c.exttype = t)).map map_call.driveid

/-- The count of registered drives of the class with row `t`, as the code
reads it: `hdcount` of the BIOS data area for fixed disks, else the
counters of `Drives`. -/
def class_count (s : machine_s) (t : Nat) : Nat :=
  if t = EXTTYPE_HD then u8 s.bda.hdcount
  else if t = EXTTYPE_CD then u8 s.Drives.cdcount
  else u8 s.Drives.floppycount

/-! ## 16bit calling interface -/

/-- The fields of `struct disk_op_s`, a disk operation request. -/
structure disk_op_s where
  lba : Nat
  buf_fl : Nat
  count : Nat
  driveid : Nat
  command : Nat
deriving DecidableEq

/-- The transport drivers, external to `block.c`: each takes the request
record and returns a status and the record as it leaves it. -/
structure drivers_s where
  process_floppy_op : disk_op_s → Int × disk_op_s
  process_ata_op : disk_op_s → Int × disk_op_s
  process_atapi_op : disk_op_s → Int × disk_op_s
  process_ramdisk_op : disk_op_s → Int × disk_op_s

/-- Outcome of a request: the status returned, the request record
afterwards, and the device classes whose transport driver was called. -/
structure op_result where
  status : Int
  op : disk_op_s
  called : List Nat
deriving DecidableEq

/-- Function `process_op`. -/
def process_op (drv : drivers_s) (D : drives_s) (op : disk_op_s) : op_result :=
  let type := u8 (D.drives (u8 op.driveid)).type
  if type = DTYPE_FLOPPY then
    { status := (drv.process_floppy_op op).1, op := (drv.process_floppy_op op).2,
      called := [DTYPE_FLOPPY] }
  else if type = DTYPE_ATA then
    { status := (drv.process_ata_op op).1, op := (drv.process_ata_op op).2,
      called := [DTYPE_ATA] }
  else if type = DTYPE_ATAPI then
    { status := (drv.process_atapi_op op).1, op := (drv.process_atapi_op op).2,
      called := [DTYPE_ATAPI] }
  else if type = DTYPE_RAMDISK then
    { status := (drv.process_ramdisk_op op).1, op := (drv.process_ramdisk_op op).2,
      called := [DTYPE_RAMDISK] }
  else
    { status := DISK_RET_EPARAM, op := { op with count := 0 }, called := [] }

/-- Function `__send_disk_op`: the request record `op_far` of the caller is
copied to the local `dop`, `process_op` runs on the copy, and the `u16`
field `count` of the copy is written back to the caller's record. -/
def __send_disk_op (drv : drivers_s) (D : drives_s) (op_far : disk_op_s) : op_result :=
  let dop := op_far
  let r := process_op drv D dop
  { status := r.status, op := { op_far with count := u16 r.op.count }, called := r.called }

/-! ## Concrete machines used to evaluate the code -/

/-- The environment of a PC build: 16 entries per row of `Drives.idmap`,
the extended BIOS data area at segment 0x9fc0, `fdpt[i]` at offset
0x3d + 16 * i. -/
def pc_platform : platform_s :=
  { max_extdrive := 16, ebda_seg := 40896, fdpt_offset := fun i => 61 + 16 * i }

/-- The machine right after `drive_setup` on zeroed memory, with the drive
table then filled with the records `drives` by device detection. -/
def machine_with (drives : Nat → drive_s) : machine_s :=
  { Drives := { drives := drives, floppycount := 0, cdcount := 0, idmap := fun _ _ => 255 }
    bda := { hdcount := 0, equipment_list_flags := 0, floppy_harddisk_info := 0 }
    fdpt := fun _ =>
      { cylinders := 0, heads := 0, a0h_signature := 0, phys_sectors := 0,
        precompensation := 0, reserved := 0, drive_control_byte := 0, phys_cylinders := 0,
        phys_heads := 0, landing_zone := 0, sectors := 0, checksum := 0 }
    ivt := fun _ => (0, 0) }

/-- A disk of 1032192 sectors with physical geometry (1024, 16, 63), as
`setup_translation` leaves it under the policy None: legacy geometry equal
to the physical geometry. -/
def plain_disk : drive_s :=
  { type := 2, cntl_id := 0, translation := 0, sectors := 1032192,
    lchs := { heads := 16, cylinders := 1024, spt := 63 },
    pchs := { heads := 16, cylinders := 1024, spt := 63 } }

/-- A 1.44 MB floppy drive record: geometry (80, 2, 18). -/
def floppy_drive : drive_s :=
  { type := 1, cntl_id := 0, translation := 0, sectors := 2880,
    lchs := { heads := 2, cylinders := 80, spt := 18 },
    pchs := { heads := 2, cylinders := 80, spt := 18 } }

/-- A disk of 16514064 sectors with physical geometry (16383, 16, 63), as
`setup_translation` leaves it under the policy LBA: legacy geometry
(1024, 255, 63). -/
def lba_disk : drive_s :=
  { type := 2, cntl_id := 0, translation := 1, sectors := 16514064,
    lchs := { heads := 255, cylinders := 1024, spt := 63 },
    pchs := { heads := 16, cylinders := 16383, spt := 63 } }

/-! ## The step of the LargeCHS translation, in the words of the specification -/

/-- One halving and doubling step `(c, h) -> (c div 2, 2*h mod 2^16)`. -/
def large_step (p : Nat × Nat) : Nat × Nat := (p.1 / 2, 2 * p.2 % 65536)

/-! ## Auxiliary facts -/

theorem u16_of_lt {x : Nat} (h : x < 65536) : u16 x = x := Nat.mod_eq_of_lt h

theorem u32_of_lt {x : Nat} (h : x < 4294967296) : u32 x = x := Nat.mod_eq_of_lt h

theorem u64_of_lt {x : Nat} (h : x < 18446744073709551616) : u64 x = x :=
  Nat.mod_eq_of_lt h

theorem u16_lt (x : Nat) : u16 x < 65536 := Nat.mod_lt _ (by decide)

theorem u8_lt (x : Nat) : u8 x < 256 := Nat.mod_lt _ (by decide)

theorem clip_cylinders_le (l : chs_s) : (clip_cylinders l).cylinders ≤ 1024 := by
  unfold clip_cylinders
  split
  · exact Nat.le_refl 1024
  · omega

theorem clip_cylinders_heads (l : chs_s) : (clip_cylinders l).heads = l.heads := by
  unfold clip_cylinders
  split <;> rfl

theorem clip_cylinders_spt (l : chs_s) : (clip_cylinders l).spt = l.spt := by
  unfold clip_cylinders
  split <;> rfl

theorem clip_cylinders_cylinders (l : chs_s) :
    (clip_cylinders l).cylinders = min l.cylinders 1024 := by
  unfold clip_cylinders
  split
  · simp only []
    omega
  · omega

theorem get_translation_lt (coreboot : Bool) (inb_cmos : Nat → Nat) (d : drive_s) :
    get_translation coreboot inb_cmos d < 256 := by
  unfold get_translation
  simp only []
  split
  · exact u8_lt _
  · unfold get_translation_heuristic
    simp only []
    split
    · decide
    · split <;> decide

theorem setup_translation_lchs_eq (coreboot : Bool) (inb_cmos : Nat → Nat) (d : drive_s) :
    (setup_translation coreboot inb_cmos d).lchs =
      setup_translation_lchs (get_translation coreboot inb_cmos d) d.pchs d.sectors := by
  have h := get_translation_lt coreboot inb_cmos d
  simp only [setup_translation, u8, Nat.mod_eq_of_lt h]

theorem setup_translation_translation (coreboot : Bool) (inb_cmos : Nat → Nat)
    (d : drive_s) :
    (setup_translation coreboot inb_cmos d).translation =
      get_translation coreboot inb_cmos d := by
  have h := get_translation_lt coreboot inb_cmos d
  simp only [setup_translation, u8, Nat.mod_eq_of_lt h]

theorem u16_shl_one (h : Nat) : u16 (h <<< 1) = 2 * h % 65536 := by
  simp only [u16, Nat.shiftLeft_eq, pow_one, Nat.mul_comm]

theorem u16_shr_one {c : Nat} (hc : c < 65536) : u16 (c >>> 1) = c / 2 := by
  simp only [u16, Nat.shiftRight_eq_div_pow, pow_one]
  exact Nat.mod_eq_of_lt (by omega)

theorem u16_shr_one_le (c : Nat) : u16 (c >>> 1) ≤ c / 2 := by
  simp only [u16, Nat.shiftRight_eq_div_pow, pow_one]
  exact Nat.mod_le _ _

theorem large_loop_eq (c h : Nat) :
    large_loop c h =
      if c > 1024 then
        if u16 (h <<< 1) > 127 then (u16 (c >>> 1), u16 (h <<< 1))
        else large_loop (u16 (c >>> 1)) (u16 (h <<< 1))
      else (c, h) := by
  rw [large_loop]

theorem large_loop_heads_eq (c h : Nat) :
    large_loop_heads c h =
      if c > 1024 then
        if u16 (h <<< 1) > 127 then [h, u16 (h <<< 1)]
        else h :: large_loop_heads (u16 (c >>> 1)) (u16 (h <<< 1))
      else [h] := by
  rw [large_loop_heads]

theorem large_loop_snd_le (c h : Nat) (hh : h ≤ 127) : (large_loop c h).2 ≤ 254 := by
  induction c using Nat.strong_induction_on generalizing h with
  | _ c ih =>
    rw [large_loop_eq]
    have e := u16_shl_one h
    have hle := u16_shr_one_le c
    split
    · split
      · show u16 (h <<< 1) ≤ 254
        omega
      · exact ih _ (by omega) _ (by omega)
    · show h ≤ 254
      omega


theorem large_loop_heads_spec (c h : Nat) (hh : h ≤ 127) :
    ∃ l : List Nat, large_loop_heads c h = l ++ [(large_loop c h).2] ∧
      ∀ x ∈ l, x ≤ 127 := by
  induction c using Nat.strong_induction_on generalizing h with
  | _ c ih =>
    rw [large_loop_eq, large_loop_heads_eq]
    have hle := u16_shr_one_le c
    split
    · split
      · exact ⟨[h], rfl, by simpa using hh⟩
      · obtain ⟨l, h1, h2⟩ := ih (u16 (c >>> 1)) (by omega) (u16 (h <<< 1)) (by omega)
        refine ⟨h :: l, ?_, ?_⟩
        · rw [h1]
          rfl
        · intro x hx
          rcases List.mem_cons.mp hx with hx | hx
          · omega
          · exact h2 x hx
    · exact ⟨[], rfl, by simp⟩

theorem large_loop_iterate (c h : Nat) (hc : c < 65536) :
    ∃ k : Nat,
      (∀ j, j < k → (large_step^[j] (c, h)).1 > 1024 ∧
        (0 < j → (large_step^[j] (c, h)).2 ≤ 127)) ∧
      ((large_step^[k] (c, h)).1 ≤ 1024 ∨ (0 < k ∧ (large_step^[k] (c, h)).2 > 127)) ∧
      large_loop c h = large_step^[k] (c, h) := by
  induction c using Nat.strong_induction_on generalizing h with
  | _ c ih =>
    rw [large_loop_eq]
    have e1 := u16_shl_one h
    have e2 := u16_shr_one hc
    have hstep : large_step (c, h) = (u16 (c >>> 1), u16 (h <<< 1)) := by
      simp only [large_step, e1, e2]
    split
    · rename_i hgt
      split
      · rename_i hbig
        refine ⟨1, ?_, ?_, ?_⟩
        · intro j hj
          have hj0 : j = 0 := by omega
          subst hj0
          exact ⟨hgt, fun h0 => absurd h0 (by decide)⟩
        · right
          refine ⟨by decide, ?_⟩
          rw [Function.iterate_one, hstep]
          exact hbig
        · rw [Function.iterate_one, hstep]
      · rename_i hsmall
        obtain ⟨k, h1, h2, h3⟩ :=
          ih (u16 (c >>> 1)) (by omega) (u16 (h <<< 1)) (by omega)
        refine ⟨k + 1, ?_, ?_, ?_⟩
        · intro j hj
          cases j with
          | zero => exact ⟨hgt, fun h0 => absurd h0 (by decide)⟩
          | succ i =>
            rw [Function.iterate_succ_apply, hstep]
            refine ⟨(h1 i (by omega)).1, fun _ => ?_⟩
            cases i with
            | zero =>
              rw [Function.iterate_zero_apply]
              show u16 (h <<< 1) ≤ 127
              omega
            | succ i2 => exact (h1 (i2 + 1) (by omega)).2 (by omega)
        · rw [Function.iterate_succ_apply, hstep]
          rcases h2 with h2 | h2
          · exact Or.inl h2
          · exact Or.inr ⟨by omega, h2.2⟩
        · rw [Function.iterate_succ_apply, hstep]
          exact h3
    · rename_i hle
      refine ⟨0, ?_, ?_, ?_⟩
      · intro j hj
        omega
      · left
        rw [Function.iterate_zero_apply]
        show c ≤ 1024
        omega
      · rw [Function.iterate_zero_apply]

theorem lba_heads_le (x : Nat) : lba_heads x ≤ 255 := by
  unfold lba_heads
  repeat' split
  all_goals omega

theorem lba_heads_ge (x : Nat) : 16 ≤ lba_heads x := by
  unfold lba_heads
  repeat' split
  all_goals omega

theorem case_lba_bounds (sectors : Nat) (l : chs_s) :
    (case_lba sectors l).heads ≤ 255 ∧ (case_lba sectors l).spt = 63 := by
  unfold case_lba
  split
  · exact ⟨by decide, rfl⟩
  · exact ⟨lba_heads_le _, rfl⟩

theorem rechs_adjust_spt (l : chs_s) : (rechs_adjust l).spt = l.spt := by
  unfold rechs_adjust
  split <;> rfl

theorem rechs_adjust_heads_le (l : chs_s) (h : l.heads ≤ 127) :
    (rechs_adjust l).heads ≤ 127 := by
  unfold rechs_adjust
  split
  · show 15 ≤ 127
    decide
  · exact h

theorem case_large_bounds (l : chs_s) (h : l.heads ≤ 127) :
    (case_large l).heads ≤ 254 ∧ (case_large l).spt = l.spt :=
  ⟨large_loop_snd_le _ _ h, rfl⟩

theorem setup_translation_lchs_bounds (translation : Nat) (pchs : chs_s) (sectors : Nat)
    (hh : translation = TRANSLATION_LBA ∨ pchs.heads ≤ 127)
    (hs : translation = TRANSLATION_LBA ∨ pchs.spt ≤ 63) :
    (setup_translation_lchs translation pchs sectors).cylinders ≤ 1024 ∧
    (setup_translation_lchs translation pchs sectors).heads ≤ 255 ∧
    (setup_translation_lchs translation pchs sectors).spt ≤ 63 := by
  refine ⟨clip_cylinders_le _, ?_⟩
  unfold setup_translation_lchs
  simp only []
  rw [clip_cylinders_heads, clip_cylinders_spt]
  have a1 : u16 pchs.heads ≤ pchs.heads := Nat.mod_le _ _
  have a2 : u16 pchs.spt ≤ pchs.spt := Nat.mod_le _ _
  by_cases hl : translation = TRANSLATION_LBA
  · have hb := case_lba_bounds (u64 sectors)
      { heads := u16 pchs.heads, cylinders := u16 pchs.cylinders, spt := u16 pchs.spt }
    subst hl
    simp only [translation_switch, TRANSLATION_LBA, TRANSLATION_NONE, if_true]
    rw [if_neg (by decide)]
    omega
  · have hh2 : pchs.heads ≤ 127 := hh.resolve_left hl
    have hs2 : pchs.spt ≤ 63 := hs.resolve_left hl
    unfold translation_switch
    rw [if_neg hl]
    split
    · exact ⟨by show u16 pchs.heads ≤ 255; omega, by show u16 pchs.spt ≤ 63; omega⟩
    · split
      · have hb := case_large_bounds (rechs_adjust
          { heads := u16 pchs.heads, cylinders := u16 pchs.cylinders, spt := u16 pchs.spt })
          (rechs_adjust_heads_le _ (by show u16 pchs.heads ≤ 127; omega))
        rw [rechs_adjust_spt] at hb
        exact ⟨by omega, by rw [hb.2]; show u16 pchs.spt ≤ 63; omega⟩
      · split
        · have hb := case_large_bounds
            { heads := u16 pchs.heads, cylinders := u16 pchs.cylinders, spt := u16 pchs.spt }
            (by show u16 pchs.heads ≤ 127; omega)
          exact ⟨by omega, by rw [hb.2]; show u16 pchs.spt ≤ 63; omega⟩
        · exact ⟨by show u16 pchs.heads ≤ 255; omega, by show u16 pchs.spt ≤ 63; omega⟩

theorem case_lba_small (n : Nat) (hn : n ≤ 63 * 255 * 1024) (l : chs_s) :
    case_lba n l =
      { heads := lba_heads (n / 63 / 1024),
        cylinders := n / 63 / lba_heads (n / 63 / 1024),
        spt := 63 } := by
  have e1 : u32 n = n := u32_of_lt (by omega)
  have e2 : u32 (n / 63) = n / 63 := u32_of_lt (by omega)
  have e3 : u16 (n / 63 / 1024) = n / 63 / 1024 := u16_of_lt (by omega)
  have hge := lba_heads_ge (n / 63 / 1024)
  have hdiv : n / 63 / lba_heads (n / 63 / 1024) ≤ n / 63 / 16 :=
    Nat.div_le_div_left hge (by decide)
  have e4 : u16 (n / 63 / lba_heads (n / 63 / 1024)) =
      n / 63 / lba_heads (n / 63 / 1024) := u16_of_lt (by omega)
  unfold case_lba
  rw [if_neg (by omega)]
  simp only [e1, e2, e3, e4]

theorem setup_translation_lchs_lba_small (pchs : chs_s) (n : Nat)
    (hn : n ≤ 63 * 255 * 1024) :
    setup_translation_lchs TRANSLATION_LBA pchs n =
      { heads := lba_heads (n / 63 / 1024),
        cylinders := min (n / 63 / lba_heads (n / 63 / 1024)) 1024,
        spt := 63 } := by
  have e0 : u64 n = n := u64_of_lt (by omega)
  have hsw : translation_switch TRANSLATION_LBA n
      { heads := u16 pchs.heads, cylinders := u16 pchs.cylinders, spt := u16 pchs.spt } =
      { heads := lba_heads (n / 63 / 1024),
        cylinders := n / 63 / lba_heads (n / 63 / 1024),
        spt := 63 } := by
    rw [← case_lba_small n hn
      { heads := u16 pchs.heads, cylinders := u16 pchs.cylinders, spt := u16 pchs.spt }]
    simp only [translation_switch, TRANSLATION_LBA, TRANSLATION_NONE, if_true]
    rw [if_neg (by decide)]
  simp only [setup_translation_lchs, e0, hsw]
  have hcl := clip_cylinders_cylinders
    { heads := lba_heads (n / 63 / 1024),
      cylinders := n / 63 / lba_heads (n / 63 / 1024), spt := 63 }
  have hhd := clip_cylinders_heads
    { heads := lba_heads (n / 63 / 1024),
      cylinders := n / 63 / lba_heads (n / 63 / 1024), spt := 63 }
  have hsp := clip_cylinders_spt
    { heads := lba_heads (n / 63 / 1024),
      cylinders := n / 63 / lba_heads (n / 63 / 1024), spt := 63 }
  cases hres : clip_cylinders
    { heads := lba_heads (n / 63 / 1024),
      cylinders := n / 63 / lba_heads (n / 63 / 1024), spt := 63 } with
  | mk a b e =>
    rw [hres] at hcl hhd hsp
    simp only [] at hcl hhd hsp
    rw [hcl, hhd, hsp]

theorem int32_of_lt {x : Nat} (h : x < 2147483648) : int32 x = (x : Int) := by
  unfold int32
  have e : x % 4294967296 = x := Nat.mod_eq_of_lt (by omega)
  rw [e, if_pos h]

/-- Whenever the exact product `cylinders * heads` fits the C type `int`,
the heuristic of `get_translation` decides on the exact product. -/
theorem get_translation_heuristic_exact (c h s : Nat)
    (hc : c < 65536) (hh : h < 65536) (hs : s < 65536) (hp : c * h < 2147483648) :
    get_translation_heuristic { heads := h, cylinders := c, spt := s } =
      if c ≤ 1024 ∧ h ≤ 16 ∧ s ≤ 63 then TRANSLATION_NONE
      else if c * h ≤ 131072 then TRANSLATION_LARGE
      else TRANSLATION_LBA := by
  simp only [get_translation_heuristic, u16_of_lt hc, u16_of_lt hh, u16_of_lt hs,
    int32_of_lt hp]
  have e : ((c * h : Nat) : Int) ≤ 131072 ↔ c * h ≤ 131072 := by
    constructor <;> intro h1 <;> omega
  simp only [e]

theorem rechs_adjust_eq (c h s : Nat) :
    rechs_adjust { heads := h, cylinders := c, spt := s } =
      if h = 16 then { heads := 15, cylinders := min c 61439 * 16 / 15, spt := s }
      else { heads := h, cylinders := c, spt := s } := by
  unfold rechs_adjust
  simp only []
  split
  · have hm : (if c > 61439 then 61439 else c) = min c 61439 := by
      split <;> omega
    rw [hm]
    have hle : min c 61439 ≤ 61439 := Nat.min_le_right _ _
    have e1 : u32 (min c 61439) = min c 61439 := u32_of_lt (by omega)
    have e2 : u32 (min c 61439 * 16) = min c 61439 * 16 := u32_of_lt (by omega)
    have e3 : u16 (min c 61439 * 16 / 15) = min c 61439 * 16 / 15 := u16_of_lt (by omega)
    rw [e1, e2, e3]
  · rfl

theorem unpack_fields :
    ∀ t0 : Fin 4, ∀ t1 : Fin 4, ∀ t2 : Fin 4, ∀ t3 : Fin 4, ∀ k : Fin 4,
      ((t0.val ||| t1.val <<< 2 ||| t2.val <<< 4 ||| t3.val <<< 6) >>> (2 * k.val)) &&& 3 =
        if k.val = 0 then t0.val else if k.val = 1 then t1.val
        else if k.val = 2 then t2.val else t3.val := by
  decide

theorem pack_lt :
    ∀ t0 : Fin 4, ∀ t1 : Fin 4, ∀ t2 : Fin 4, ∀ t3 : Fin 4,
      (t0.val ||| t1.val <<< 2 ||| t2.val <<< 4 ||| t3.val <<< 6) < 256 := by
  decide

theorem get_translation_nvram (inb_cmos : Nat → Nat) (d : drive_s)
    (hata : u8 d.type = DTYPE_ATA) :
    get_translation false inb_cmos d =
      (u8 (inb_cmos (CMOS_BIOS_DISKTRANSFLAG + u8 d.cntl_id / 2 / 2)) >>>
        (2 * (u8 d.cntl_id % 4))) &&& 3 := by
  have ha := u8_lt d.cntl_id
  have hb := u8_lt (inb_cmos (CMOS_BIOS_DISKTRANSFLAG + u8 d.cntl_id / 2 / 2))
  have e1 : u8 (u8 d.cntl_id / 2) = u8 d.cntl_id / 2 := Nat.mod_eq_of_lt (by omega)
  have hsh : u8 (inb_cmos (CMOS_BIOS_DISKTRANSFLAG + u8 d.cntl_id / 2 / 2)) >>>
      (2 * (u8 d.cntl_id % 4)) ≤
      u8 (inb_cmos (CMOS_BIOS_DISKTRANSFLAG + u8 d.cntl_id / 2 / 2)) := by
    rw [Nat.shiftRight_eq_div_pow]
    exact Nat.div_le_self _ _
  have e2 : u8 (u8 (inb_cmos (CMOS_BIOS_DISKTRANSFLAG + u8 d.cntl_id / 2 / 2)) >>>
      (2 * (u8 d.cntl_id % 4))) =
      u8 (inb_cmos (CMOS_BIOS_DISKTRANSFLAG + u8 d.cntl_id / 2 / 2)) >>>
      (2 * (u8 d.cntl_id % 4)) := Nat.mod_eq_of_lt (by omega)
  have hand : ∀ x : Nat, x &&& 3 ≤ 3 := fun x => Nat.and_le_right
  have e3 : ∀ x : Nat, u8 (x &&& 3) = x &&& 3 := fun x =>
    Nat.mod_eq_of_lt (by have := hand x; omega)
  unfold get_translation
  simp only [hata, and_self, if_true, e1, e2, e3]

theorem setup_translation_lchs_lba_big (pchs : chs_s) (n : Nat)
    (hbig : 63 * 255 * 1024 < n) (h64 : n < 2 ^ 64) :
    setup_translation_lchs TRANSLATION_LBA pchs n =
      { heads := 255, cylinders := 1024, spt := 63 } := by
  have hs : u64 n = n := u64_of_lt (by omega)
  simp only [setup_translation_lchs, translation_switch, hs, case_lba, clip_cylinders]
  simp [TRANSLATION_LBA, TRANSLATION_NONE, hbig]

theorem fill_fdpt_Drives (pf : platform_s) (s : machine_s) (k : Nat) :
    (fill_fdpt pf s k).Drives = s.Drives := by
  unfold fill_fdpt
  simp only []
  split
  · rfl
  · split <;> rfl

theorem fill_fdpt_bda (pf : platform_s) (s : machine_s) (k : Nat) :
    (fill_fdpt pf s k).bda = s.bda := by
  unfold fill_fdpt
  simp only []
  split
  · rfl
  · split <;> rfl

theorem fill_fdpt_ge_two (pf : platform_s) (s : machine_s) (k : Nat) (hk : 2 ≤ k) :
    fill_fdpt pf s k = s := by
  unfold fill_fdpt
  rw [if_pos (by omega)]

theorem sum_fix (B c : Nat) :
    (B + (c % 256 + 256 - (B + c % 256) % 256) % 256 % 256) % 256 = 0 := by
  omega

/-- The value `fill_fdpt` stores into the checksum byte makes the byte sum
of the descriptor 0 modulo 256. -/
theorem checksum_fix (f : fdpt_s) :
    checksum (fdpt_bytes (fdpt_set_checksum f)) = 0 := by
  cases f with
  | mk a1 a2 a3 a4 a5 a6 a7 a8 a9 a10 a11 a12 =>
    simp only [fdpt_set_checksum, fdpt_bytes, checksum, List.sum_cons, List.sum_nil,
      Nat.add_zero]
    generalize u16 a1 % 256 = b1
    generalize u16 a1 / 256 = b2
    generalize u8 a2 = b3
    generalize u8 a3 = b4
    generalize u8 a4 = b5
    generalize u16 a5 % 256 = b6
    generalize u16 a5 / 256 = b7
    generalize u8 a6 = b8
    generalize u8 a7 = b9
    generalize u16 a8 % 256 = b10
    generalize u16 a8 / 256 = b11
    generalize u8 a9 = b12
    generalize u16 a10 % 256 = b13
    generalize u16 a10 / 256 = b14
    generalize u8 a11 = b15
    simp only [u8]
    have := sum_fix (b1 + b2 + b3 + b4 + b5 + b6 + b7 + b8 + b9 + b10 + b11 + b12 + b13 + b14 + b15) a12
    omega
theorem fill_fdpt_translated_checksum (pf : platform_s) (s : machine_s) (k : Nat)
    (hk : k ≤ 1)
    (hgeom : ¬ (u16 (s.Drives.drives k).lchs.cylinders = u16 (s.Drives.drives k).pchs.cylinders ∧
      u16 (s.Drives.drives k).lchs.heads = u16 (s.Drives.drives k).pchs.heads ∧
      u16 (s.Drives.drives k).lchs.spt = u16 (s.Drives.drives k).pchs.spt)) :
    checksum (fdpt_bytes ((fill_fdpt pf s k).fdpt k)) = 0 := by
  unfold fill_fdpt
  rw [if_neg (by omega)]
  simp only []
  rw [if_neg hgeom]
  simp only [if_true]
  exact checksum_fix _

theorem fill_fdpt_translated_ivt (pf : platform_s) (s : machine_s) (k : Nat)
    (hk : k ≤ 1)
    (hgeom : ¬ (u16 (s.Drives.drives k).lchs.cylinders = u16 (s.Drives.drives k).pchs.cylinders ∧
      u16 (s.Drives.drives k).lchs.heads = u16 (s.Drives.drives k).pchs.heads ∧
      u16 (s.Drives.drives k).lchs.spt = u16 (s.Drives.drives k).pchs.spt)) :
    (fill_fdpt pf s k).ivt (if k = 0 then 65 else 70) = (pf.ebda_seg, pf.fdpt_offset k) := by
  unfold fill_fdpt
  rw [if_neg (by omega)]
  simp only []
  rw [if_neg hgeom]
  simp only [if_true]

theorem fill_fdpt_untranslated_ivt (pf : platform_s) (s : machine_s) (k : Nat)
    (hgeom : u16 (s.Drives.drives k).lchs.cylinders = u16 (s.Drives.drives k).pchs.cylinders ∧
      u16 (s.Drives.drives k).lchs.heads = u16 (s.Drives.drives k).pchs.heads ∧
      u16 (s.Drives.drives k).lchs.spt = u16 (s.Drives.drives k).pchs.spt) :
    (fill_fdpt pf s k).ivt = s.ivt := by
  unfold fill_fdpt
  simp only []
  split
  · rfl
  · rfl

theorem or_and_self_right (a b : Nat) : (a ||| b) &&& b = b := by
  apply Nat.eq_of_testBit_eq
  intro i
  rw [Nat.testBit_and, Nat.testBit_or]
  cases a.testBit i <;> cases b.testBit i <;> rfl

theorem u16_or_of_lt {a b : Nat} (ha : a < 65536) (hb : b < 65536) :
    u16 (a ||| b) = a ||| b := by
  have h : a ||| b < 2 ^ 16 := Nat.or_lt_two_pow (by omega) (by omega)
  exact Nat.mod_eq_of_lt (by omega)

theorem u16_or_or (x b : Nat) (hb : b < 65536) :
    u16 (u16 (u16 (u16 x ||| b)) ||| b) = u16 (u16 x ||| b) := by
  have hx := u16_lt x
  have e1 : u16 (u16 x ||| b) = u16 x ||| b := u16_or_of_lt hx hb
  have h1 : u16 x ||| b < 65536 := by
    rw [← e1]
    exact u16_lt _
  rw [e1, u16_of_lt h1, Nat.lor_assoc, Nat.or_self, e1]

theorem u8_u8 (x : Nat) : u8 (u8 x) = u8 x := Nat.mod_mod _ _

theorem class_count_floppy (s : machine_s) :
    class_count s EXTTYPE_FLOPPY = u8 s.Drives.floppycount := by
  simp [class_count, EXTTYPE_FLOPPY, EXTTYPE_HD, EXTTYPE_CD]

theorem class_count_hd (s : machine_s) : class_count s EXTTYPE_HD = u8 s.bda.hdcount := by
  simp [class_count]

theorem class_count_cd (s : machine_s) : class_count s EXTTYPE_CD = u8 s.Drives.cdcount := by
  simp [class_count, EXTTYPE_HD, EXTTYPE_CD]

theorem map_floppy_drive_full (pf : platform_s) (s : machine_s) (d : Nat)
    (h : u8 s.Drives.floppycount ≥ pf.max_extdrive) : map_floppy_drive pf s d = s := by
  unfold map_floppy_drive
  simp only []
  rw [if_pos h]

theorem map_floppy_drive_Drives (pf : platform_s) (s : machine_s) (d : Nat)
    (h : ¬ u8 s.Drives.floppycount ≥ pf.max_extdrive) :
    (map_floppy_drive pf s d).Drives =
      { set_idmap s.Drives EXTTYPE_FLOPPY (u8 s.Drives.floppycount) (u8 d) with
        floppycount := u8 (u8 s.Drives.floppycount + 1) } := by
  unfold map_floppy_drive
  simp only []
  rw [if_neg h]
  split <;> rfl

theorem map_floppy_drive_bda (pf : platform_s) (s : machine_s) (d : Nat)
    (h : ¬ u8 s.Drives.floppycount ≥ pf.max_extdrive) :
    (map_floppy_drive pf s d).bda =
      if u8 (u8 s.Drives.floppycount + 1) = 1 then
        { s.bda with
          equipment_list_flags := u16 (u16 s.bda.equipment_list_flags ||| 1)
          floppy_harddisk_info := 7 }
      else
        { s.bda with
          equipment_list_flags := u16 (u16 s.bda.equipment_list_flags ||| 65)
          floppy_harddisk_info := 119 } := by
  unfold map_floppy_drive
  simp only []
  rw [if_neg h]
  split <;> rfl

theorem map_cd_drive_full (pf : platform_s) (s : machine_s) (d : Nat)
    (h : u8 s.Drives.cdcount ≥ pf.max_extdrive) : map_cd_drive pf s d = s := by
  unfold map_cd_drive
  simp only []
  rw [if_pos h]

theorem map_cd_drive_Drives (pf : platform_s) (s : machine_s) (d : Nat)
    (h : ¬ u8 s.Drives.cdcount ≥ pf.max_extdrive) :
    (map_cd_drive pf s d).Drives =
      { set_idmap s.Drives EXTTYPE_CD (u8 s.Drives.cdcount) (u8 d) with
        cdcount := u8 (u8 s.Drives.cdcount + 1) } := by
  unfold map_cd_drive
  simp only []
  rw [if_neg h]

theorem map_cd_drive_bda (pf : platform_s) (s : machine_s) (d : Nat) :
    (map_cd_drive pf s d).bda = s.bda := by
  unfold map_cd_drive
  simp only []
  split <;> rfl

theorem map_hd_drive_full (pf : platform_s) (s : machine_s) (d : Nat)
    (h : u8 s.bda.hdcount ≥ pf.max_extdrive) : map_hd_drive pf s d = s := by
  unfold map_hd_drive
  simp only []
  rw [if_pos h]

theorem map_hd_drive_Drives (pf : platform_s) (s : machine_s) (d : Nat)
    (h : ¬ u8 s.bda.hdcount ≥ pf.max_extdrive) :
    (map_hd_drive pf s d).Drives = set_idmap s.Drives EXTTYPE_HD (u8 s.bda.hdcount) (u8 d) := by
  unfold map_hd_drive
  simp only []
  rw [if_neg h, fill_fdpt_Drives]

theorem map_hd_drive_bda (pf : platform_s) (s : machine_s) (d : Nat)
    (h : ¬ u8 s.bda.hdcount ≥ pf.max_extdrive) :
    (map_hd_drive pf s d).bda = { s.bda with hdcount := u8 (u8 s.bda.hdcount + 1) } := by
  unfold map_hd_drive
  simp only []
  rw [if_neg h, fill_fdpt_bda]

theorem exttype_le (c : map_call) : c.exttype ≤ 2 := by
  cases c <;> simp [map_call.exttype, EXTTYPE_FLOPPY, EXTTYPE_HD, EXTTYPE_CD]

theorem run_call_full (pf : platform_s) (s : machine_s) (c : map_call)
    (h : class_count s c.exttype ≥ pf.max_extdrive) : run_call pf s c = s := by
  cases c with
  | floppy d =>
    rw [map_call.exttype, class_count_floppy] at h
    exact map_floppy_drive_full pf s d h
  | cd d =>
    rw [map_call.exttype, class_count_cd] at h
    exact map_cd_drive_full pf s d h
  | hd d =>
    rw [map_call.exttype, class_count_hd] at h
    exact map_hd_drive_full pf s d h

theorem run_call_idmap (pf : platform_s) (s : machine_s) (c : map_call)
    (h : ¬ class_count s c.exttype ≥ pf.max_extdrive) (t i : Nat) :
    (run_call pf s c).Drives.idmap t i =
      if t = c.exttype ∧ i = class_count s c.exttype then u8 c.driveid
      else s.Drives.idmap t i := by
  cases c with
  | floppy d =>
    rw [map_call.exttype, class_count_floppy] at h
    rw [map_call.exttype, class_count_floppy, run_call, map_floppy_drive_Drives pf s d h]
    rfl
  | cd d =>
    rw [map_call.exttype, class_count_cd] at h
    rw [map_call.exttype, class_count_cd, run_call, map_cd_drive_Drives pf s d h]
    rfl
  | hd d =>
    rw [map_call.exttype, class_count_hd] at h
    rw [map_call.exttype, class_count_hd, run_call, map_hd_drive_Drives pf s d h]
    rfl

theorem run_call_count_self (pf : platform_s) (s : machine_s) (c : map_call)
    (h : ¬ class_count s c.exttype ≥ pf.max_extdrive) :
    class_count (run_call pf s c) c.exttype = u8 (class_count s c.exttype + 1) := by
  cases c with
  | floppy d =>
    rw [map_call.exttype, class_count_floppy] at h
    rw [map_call.exttype, class_count_floppy, class_count_floppy, run_call,
      map_floppy_drive_Drives pf s d h]
    exact u8_u8 _
  | cd d =>
    rw [map_call.exttype, class_count_cd] at h
    rw [map_call.exttype, class_count_cd, class_count_cd, run_call,
      map_cd_drive_Drives pf s d h]
    exact u8_u8 _
  | hd d =>
    rw [map_call.exttype, class_count_hd] at h
    rw [map_call.exttype, class_count_hd, class_count_hd, run_call,
      map_hd_drive_bda pf s d h]
    exact u8_u8 _

theorem run_call_count_other (pf : platform_s) (s : machine_s) (c : map_call) (t : Nat)
    (ht : t ≤ 2) (hne : t ≠ c.exttype) :
    class_count (run_call pf s c) t = class_count s t := by
  by_cases h : class_count s c.exttype ≥ pf.max_extdrive
  · rw [run_call_full pf s c h]
  · have ht3 : t = EXTTYPE_FLOPPY ∨ t = EXTTYPE_HD ∨ t = EXTTYPE_CD := by
      simp only [EXTTYPE_FLOPPY, EXTTYPE_HD, EXTTYPE_CD]
      omega
    cases c with
    | floppy d =>
      rw [map_call.exttype, class_count_floppy] at h
      rw [map_call.exttype] at hne
      rcases ht3 with e | e | e
      · exact absurd e hne
      · rw [e, class_count_hd, class_count_hd, run_call, map_floppy_drive_bda pf s d h]
        split <;> rfl
      · rw [e, class_count_cd, class_count_cd, run_call, map_floppy_drive_Drives pf s d h]
        rfl
    | cd d =>
      rw [map_call.exttype, class_count_cd] at h
      rw [map_call.exttype] at hne
      rcases ht3 with e | e | e
      · rw [e, class_count_floppy, class_count_floppy, run_call,
          map_cd_drive_Drives pf s d h]
        rfl
      · rw [e, class_count_hd, class_count_hd, run_call, map_cd_drive_bda]
      · exact absurd e hne
    | hd d =>
      rw [map_call.exttype, class_count_hd] at h
      rw [map_call.exttype] at hne
      rcases ht3 with e | e | e
      · rw [e, class_count_floppy, class_count_floppy, run_call,
          map_hd_drive_Drives pf s d h]
        rfl
      · exact absurd e hne
      · rw [e, class_count_cd, class_count_cd, run_call, map_hd_drive_Drives pf s d h]
        rfl

theorem class_ids_append (t : Nat) (cs : List map_call) (c : map_call) :
    class_ids t (cs ++ [c]) =
      class_ids t cs ++ (if c.exttype = t then [c.driveid] else []) := by
  unfold class_ids
  rw [List.filter_append, List.map_append]
  congr 1
  by_cases h : c.exttype = t
  · simp [h]
  · simp [h]

theorem run_calls_append (pf : platform_s) (s : machine_s) (cs later : List map_call) :
    run_calls pf s (cs ++ later) = run_calls pf (run_calls pf s cs) later := by
  unfold run_calls
  rw [List.foldl_append]

theorem run_calls_snoc (pf : platform_s) (s : machine_s) (cs : List map_call)
    (c : map_call) :
    run_calls pf s (cs ++ [c]) = run_call pf (run_calls pf s cs) c := by
  rw [run_calls_append]
  rfl

theorem class_count_drive_setup (s : machine_s) (hs : u8 s.bda.hdcount = 0) (t : Nat) :
    class_count (drive_setup s) t = 0 := by
  unfold class_count drive_setup
  simp only []
  split
  · exact hs
  · split <;> rfl

/-- Invariant of the mapping functions, from a state in which the count of
the class `t` is 0: the count of the class is the number of calls made for
the class, capped at the capacity of a row, and the entries of the row
below the count hold the drive ids of these calls, in call order. -/
theorem run_calls_inv (pf : platform_s) (hcap : pf.max_extdrive ≤ 255) (s0 : machine_s)
    (t : Nat) (ht : t ≤ 2) (h0 : class_count s0 t = 0) (cs : List map_call)
    (hid : ∀ c ∈ cs, c.driveid < 256) :
    class_count (run_calls pf s0 cs) t = min (class_ids t cs).length pf.max_extdrive ∧
    ∀ i, i < min (class_ids t cs).length pf.max_extdrive →
      (class_ids t cs)[i]? = some ((run_calls pf s0 cs).Drives.idmap t i) := by
  induction cs using List.reverseRecOn with
  | nil =>
    refine ⟨?_, ?_⟩
    · show class_count s0 t = _
      rw [h0]
      simp [class_ids]
    · intro i hi
      simp [class_ids] at hi
  | append_singleton l c ih =>
    have hidl : ∀ x ∈ l, x.driveid < 256 := fun x hx =>
      hid x (List.mem_append_left _ hx)
    have hc : c.driveid < 256 := hid c (List.mem_append_right _ (List.mem_singleton_self c))
    obtain ⟨hcnt, hent⟩ := ih hidl
    rw [run_calls_snoc, class_ids_append]
    by_cases hsame : c.exttype = t
    · subst hsame
      rw [if_pos rfl, List.length_append, List.length_singleton]
      by_cases hfull : class_count (run_calls pf s0 l) c.exttype ≥ pf.max_extdrive
      · rw [run_call_full pf _ c hfull]
        have hlen : pf.max_extdrive ≤ (class_ids c.exttype l).length := by omega
        refine ⟨by omega, ?_⟩
        intro i hi
        have hi2 : i < (class_ids c.exttype l).length := by omega
        rw [List.getElem?_append_left hi2]
        exact hent i (by omega)
      · have hlen : (class_ids c.exttype l).length < pf.max_extdrive := by omega
        have hcnt2 : class_count (run_calls pf s0 l) c.exttype =
            (class_ids c.exttype l).length := by omega
        refine ⟨?_, ?_⟩
        · rw [run_call_count_self pf _ c hfull, hcnt2]
          have : u8 ((class_ids c.exttype l).length + 1) =
              (class_ids c.exttype l).length + 1 := Nat.mod_eq_of_lt (by omega)
          omega
        · intro i hi
          rw [run_call_idmap pf _ c hfull, hcnt2]
          by_cases hil : i = (class_ids c.exttype l).length
          · subst hil
            rw [if_pos ⟨rfl, rfl⟩]
            have : u8 c.driveid = c.driveid := Nat.mod_eq_of_lt hc
            rw [this]
            simp
          · rw [if_neg (fun h => hil h.2)]
            have hi2 : i < (class_ids c.exttype l).length := by omega
            rw [List.getElem?_append_left hi2]
            exact hent i (by omega)
    · rw [if_neg hsame, List.append_nil]
      have hne : t ≠ c.exttype := fun h => hsame h.symm
      refine ⟨?_, ?_⟩
      · rw [run_call_count_other pf _ c t ht hne]
        exact hcnt
      · intro i hi
        by_cases hfull : class_count (run_calls pf s0 l) c.exttype ≥ pf.max_extdrive
        · rw [run_call_full pf _ c hfull]
          exact hent i hi
        · rw [run_call_idmap pf _ c hfull, if_neg (fun h => hne h.1)]
          exact hent i hi

theorem run_call_indicators (pf : platform_s) (hcap : pf.max_extdrive ≤ 255)
    (s : machine_s) (c : map_call)
    (h2 : 2 ≤ class_count s EXTTYPE_FLOPPY)
    (hfl : u16 (u16 s.bda.equipment_list_flags ||| 65) = s.bda.equipment_list_flags)
    (hinfo : s.bda.floppy_harddisk_info = 119) :
    (run_call pf s c).bda.equipment_list_flags = s.bda.equipment_list_flags ∧
    (run_call pf s c).bda.floppy_harddisk_info = s.bda.floppy_harddisk_info ∧
    2 ≤ class_count (run_call pf s c) EXTTYPE_FLOPPY := by
  by_cases hfull : class_count s c.exttype ≥ pf.max_extdrive
  · rw [run_call_full pf s c hfull]
    exact ⟨rfl, rfl, h2⟩
  · cases c with
    | floppy d =>
      have hself := run_call_count_self pf s (map_call.floppy d) hfull
      rw [map_call.exttype] at hfull hself
      have hlt : class_count s EXTTYPE_FLOPPY + 1 < 256 := by omega
      have e : u8 (class_count s EXTTYPE_FLOPPY + 1) = class_count s EXTTYPE_FLOPPY + 1 :=
        Nat.mod_eq_of_lt hlt
      rw [class_count_floppy] at hfull
      have hb := map_floppy_drive_bda pf s d hfull
      rw [← class_count_floppy, e, if_neg (by omega)] at hb
      refine ⟨?_, ?_, ?_⟩
      · rw [run_call, hb]
        exact hfl
      · rw [run_call, hb]
        exact hinfo.symm
      · rw [hself, e]
        omega
    | cd d =>
      have hother := run_call_count_other pf s (map_call.cd d) EXTTYPE_FLOPPY (by decide)
        (by simp [map_call.exttype, EXTTYPE_FLOPPY, EXTTYPE_CD])
      rw [hother]
      rw [run_call, map_cd_drive_bda]
      exact ⟨rfl, rfl, h2⟩
    | hd d =>
      have hother := run_call_count_other pf s (map_call.hd d) EXTTYPE_FLOPPY (by decide)
        (by simp [map_call.exttype, EXTTYPE_FLOPPY, EXTTYPE_HD])
      rw [hother]
      rw [map_call.exttype, class_count_hd] at hfull
      rw [run_call, map_hd_drive_bda pf s d hfull]
      exact ⟨rfl, rfl, h2⟩

theorem run_calls_indicators (pf : platform_s) (hcap : pf.max_extdrive ≤ 255)
    (later : List map_call) :
    ∀ s : machine_s, 2 ≤ class_count s EXTTYPE_FLOPPY →
      u16 (u16 s.bda.equipment_list_flags ||| 65) = s.bda.equipment_list_flags →
      s.bda.floppy_harddisk_info = 119 →
      (run_calls pf s later).bda.equipment_list_flags = s.bda.equipment_list_flags ∧
      (run_calls pf s later).bda.floppy_harddisk_info = s.bda.floppy_harddisk_info := by
  induction later with
  | nil =>
    intro s _ _ _
    exact ⟨rfl, rfl⟩
  | cons c rest ih =>
    intro s h2 hfl hinfo
    obtain ⟨e1, e2, e3⟩ := run_call_indicators pf hcap s c h2 hfl hinfo
    have h := ih (run_call pf s c) e3 (by rw [e1]; exact hfl) (by rw [e2]; exact hinfo)
    show (run_calls pf (run_call pf s c) rest).bda.equipment_list_flags = _ ∧
      (run_calls pf (run_call pf s c) rest).bda.floppy_harddisk_info = _
    rw [h.1, h.2, e1, e2]
    exact ⟨rfl, rfl⟩

/-- The state after the first two floppy registrations that follow
`drive_setup`. -/
theorem two_floppies (pf : platform_s) (hcap3 : 3 ≤ pf.max_extdrive) (s : machine_s)
    (id0 id1 : Nat) :
    (run_calls pf (drive_setup s) [map_call.floppy id0]).bda.equipment_list_flags =
      u16 (u16 s.bda.equipment_list_flags ||| 1) ∧
    (run_calls pf (drive_setup s) [map_call.floppy id0]).bda.floppy_harddisk_info = 7 ∧
    (run_calls pf (drive_setup s)
      [map_call.floppy id0, map_call.floppy id1]).bda.equipment_list_flags =
      u16 (u16 (u16 (u16 s.bda.equipment_list_flags ||| 1)) ||| 65) ∧
    (run_calls pf (drive_setup s)
      [map_call.floppy id0, map_call.floppy id1]).bda.floppy_harddisk_info = 119 ∧
    class_count (run_calls pf (drive_setup s)
      [map_call.floppy id0, map_call.floppy id1]) EXTTYPE_FLOPPY = 2 := by
  have h0 : ¬ u8 (drive_setup s).Drives.floppycount ≥ pf.max_extdrive := by
    show ¬ (0 ≥ pf.max_extdrive)
    omega
  have hb1 := map_floppy_drive_bda pf (drive_setup s) id0 h0
  have hd1 := map_floppy_drive_Drives pf (drive_setup s) id0 h0
  have e1 : u8 (u8 (drive_setup s).Drives.floppycount + 1) = 1 := rfl
  rw [if_pos e1] at hb1
  have hc1 : u8 (map_floppy_drive pf (drive_setup s) id0).Drives.floppycount = 1 := by
    rw [hd1]
    rfl
  have h1 : ¬ u8 (map_floppy_drive pf (drive_setup s) id0).Drives.floppycount ≥
      pf.max_extdrive := by
    rw [hc1]
    omega
  have hb2 := map_floppy_drive_bda pf (map_floppy_drive pf (drive_setup s) id0) id1 h1
  have hd2 := map_floppy_drive_Drives pf (map_floppy_drive pf (drive_setup s) id0) id1 h1
  rw [hc1, if_neg (by decide), hb1] at hb2
  rw [hc1] at hd2
  refine ⟨?_, ?_, ?_, ?_, ?_⟩
  · show (map_floppy_drive pf (drive_setup s) id0).bda.equipment_list_flags = _
    rw [hb1]
    rfl
  · show (map_floppy_drive pf (drive_setup s) id0).bda.floppy_harddisk_info = _
    rw [hb1]
  · show (map_floppy_drive pf (map_floppy_drive pf (drive_setup s) id0)
      id1).bda.equipment_list_flags = _
    rw [hb2]
    rfl
  · show (map_floppy_drive pf (map_floppy_drive pf (drive_setup s) id0)
      id1).bda.floppy_harddisk_info = _
    rw [hb2]
  · show class_count (map_floppy_drive pf (map_floppy_drive pf (drive_setup s) id0) id1)
      EXTTYPE_FLOPPY = 2
    rw [class_count_floppy, hd2]
    rfl

/-! ## Claims -/

/-- C1: for every policy code, every physical geometry and every total
sector count, the legacy cylinder count stored by `setup_translation` is at
most 1024; this holds for the code path after policy selection with an
arbitrary code, and for the whole function on every drive record, nvram
content and build. -/
theorem C1_legacy_cylinders_le_1024 (translation : Nat) (pchs : chs_s) (sectors : Nat)
    (coreboot : Bool) (inb_cmos : Nat → Nat) (d : drive_s) :
    (setup_translation_lchs translation pchs sectors).cylinders ≤ 1024 ∧
    (setup_translation coreboot inb_cmos d).lchs.cylinders ≤ 1024 := by
  constructor
  · exact clip_cylinders_le _
  · rw [setup_translation_lchs_eq]
    exact clip_cylinders_le _

/-- C2: for every total sector count (a 64-bit value) strictly greater than
63*255*1024 = 16450560 and every physical geometry, `setup_translation`
under the LBA policy stores heads = 255, cylinders = 1024,
sectorsPerTrack = 63: both for the code after policy selection run with
the LBA code, and for the whole function on every drive record for which
`get_translation` selects LBA. -/
theorem C2_lba_saturated (pchs : chs_s) (sectors : Nat)
    (hbig : 63 * 255 * 1024 < sectors) (h64 : sectors < 2 ^ 64) :
    setup_translation_lchs TRANSLATION_LBA pchs sectors =
      { heads := 255, cylinders := 1024, spt := 63 } ∧
    ∀ (coreboot : Bool) (inb_cmos : Nat → Nat) (d : drive_s),
      d.pchs = pchs → d.sectors = sectors →
      get_translation coreboot inb_cmos d = TRANSLATION_LBA →
      (setup_translation coreboot inb_cmos d).lchs =
        { heads := 255, cylinders := 1024, spt := 63 } := by
  have hs : u64 sectors = sectors := u64_of_lt (by omega)
  have hmain : setup_translation_lchs TRANSLATION_LBA pchs sectors =
      { heads := 255, cylinders := 1024, spt := 63 } := by
    simp only [setup_translation_lchs, translation_switch, hs, case_lba, clip_cylinders]
    simp [TRANSLATION_LBA, TRANSLATION_NONE, hbig]
  refine ⟨hmain, ?_⟩
  intro coreboot inb_cmos d hp hsec hpol
  rw [setup_translation_lchs_eq, hpol, hp, hsec]
  exact hmain

/-- Witness of C2: a drive of 20000000 sectors with physical geometry
(65535, 16, 63) in a coreboot build gets the LBA policy and the saturated
legacy geometry. -/
theorem C2_lba_saturated_witness :
    get_translation true (fun _ => 0)
      { type := 2, cntl_id := 0, translation := 0, sectors := 20000000,
        lchs := { heads := 0, cylinders := 0, spt := 0 },
        pchs := { heads := 16, cylinders := 65535, spt := 63 } } = TRANSLATION_LBA ∧
    (setup_translation true (fun _ => 0)
      { type := 2, cntl_id := 0, translation := 0, sectors := 20000000,
        lchs := { heads := 0, cylinders := 0, spt := 0 },
        pchs := { heads := 16, cylinders := 65535, spt := 63 } }).lchs =
      { heads := 255, cylinders := 1024, spt := 63 } := by
  have hpol : get_translation true (fun _ => 0)
      { type := 2, cntl_id := 0, translation := 0, sectors := 20000000,
        lchs := { heads := 0, cylinders := 0, spt := 0 },
        pchs := { heads := 16, cylinders := 65535, spt := 63 } } = TRANSLATION_LBA := by
    simp [get_translation, get_translation_heuristic, u16, int32, TRANSLATION_LBA]
  exact ⟨hpol,
    (C2_lba_saturated { heads := 16, cylinders := 65535, spt := 63 } 20000000
      (by decide) (by decide)).2 true (fun _ => 0) _ rfl rfl hpol⟩

/-- C3: when the policy is chosen by the heuristic branch of
`get_translation` (coreboot build, or a device whose class is not ATA) and
the physical geometry has cylinders <= 1024, heads <= 16 and spt <= 63, the
selected and stored policy is None and the stored legacy geometry equals
the physical geometry in all three fields. -/
theorem C3_heuristic_small_geometry_identity (coreboot : Bool) (inb_cmos : Nat → Nat)
    (d : drive_s) (hheur : coreboot = true ∨ u8 d.type ≠ DTYPE_ATA)
    (hc : d.pchs.cylinders ≤ 1024) (hh : d.pchs.heads ≤ 16) (hs : d.pchs.spt ≤ 63) :
    get_translation coreboot inb_cmos d = TRANSLATION_NONE ∧
    (setup_translation coreboot inb_cmos d).translation = TRANSLATION_NONE ∧
    (setup_translation coreboot inb_cmos d).lchs = d.pchs := by
  have e1 : u16 d.pchs.cylinders = d.pchs.cylinders := u16_of_lt (by omega)
  have e2 : u16 d.pchs.heads = d.pchs.heads := u16_of_lt (by omega)
  have e3 : u16 d.pchs.spt = d.pchs.spt := u16_of_lt (by omega)
  have hcond : ¬ (coreboot = false ∧ u8 d.type = DTYPE_ATA) := by
    rintro ⟨h1, h2⟩
    rcases hheur with h | h
    · rw [h1] at h
      exact Bool.noConfusion h
    · exact h h2
  have hget : get_translation coreboot inb_cmos d = TRANSLATION_NONE := by
    unfold get_translation
    simp only [if_neg hcond, get_translation_heuristic, e1, e2, e3]
    rw [if_pos ⟨hc, hh, hs⟩]
  refine ⟨hget, ?_, ?_⟩
  · rw [setup_translation_translation, hget]
  · rw [setup_translation_lchs_eq, hget]
    simp only [setup_translation_lchs, translation_switch, if_true, e1, e2, e3,
      clip_cylinders]
    rw [if_neg (by show ¬ d.pchs.cylinders > 1024; omega)]

/-- Witness of C3: an ATA disk with physical geometry (1024, 16, 63) in a
coreboot build. -/
theorem C3_heuristic_small_geometry_identity_witness :
    get_translation true (fun _ => 255)
      { type := 2, cntl_id := 1, translation := 3, sectors := 1032192,
        lchs := { heads := 0, cylinders := 0, spt := 0 },
        pchs := { heads := 16, cylinders := 1024, spt := 63 } } = TRANSLATION_NONE ∧
    (setup_translation true (fun _ => 255)
      { type := 2, cntl_id := 1, translation := 3, sectors := 1032192,
        lchs := { heads := 0, cylinders := 0, spt := 0 },
        pchs := { heads := 16, cylinders := 1024, spt := 63 } }).translation =
      TRANSLATION_NONE ∧
    (setup_translation true (fun _ => 255)
      { type := 2, cntl_id := 1, translation := 3, sectors := 1032192,
        lchs := { heads := 0, cylinders := 0, spt := 0 },
        pchs := { heads := 16, cylinders := 1024, spt := 63 } }).lchs =
      { heads := 16, cylinders := 1024, spt := 63 } :=
  C3_heuristic_small_geometry_identity true (fun _ => 255) _ (Or.inl rfl)
    (by decide) (by decide) (by decide)

/-- C4, as stated, fails: in a coreboot build a disk with physical geometry
(cylinders 1, heads 256, spt 64) gets the LargeCHS policy, the loop is not
entered, and the stored legacy geometry has heads = 256 and spt = 64. -/
theorem C4_legacy_bounds_counterexample :
    (setup_translation true (fun _ => 0)
      { type := 2, cntl_id := 0, translation := 0, sectors := 16384,
        lchs := { heads := 0, cylinders := 0, spt := 0 },
        pchs := { heads := 256, cylinders := 1, spt := 64 } }).lchs =
      { heads := 256, cylinders := 1, spt := 64 } ∧
    ¬ ((setup_translation true (fun _ => 0)
      { type := 2, cntl_id := 0, translation := 0, sectors := 16384,
        lchs := { heads := 0, cylinders := 0, spt := 0 },
        pchs := { heads := 256, cylinders := 1, spt := 64 } }).lchs.cylinders ≤ 1024 ∧
      (setup_translation true (fun _ => 0)
      { type := 2, cntl_id := 0, translation := 0, sectors := 16384,
        lchs := { heads := 0, cylinders := 0, spt := 0 },
        pchs := { heads := 256, cylinders := 1, spt := 64 } }).lchs.heads ≤ 255 ∧
      (setup_translation true (fun _ => 0)
      { type := 2, cntl_id := 0, translation := 0, sectors := 16384,
        lchs := { heads := 0, cylinders := 0, spt := 0 },
        pchs := { heads := 256, cylinders := 1, spt := 64 } }).lchs.spt ≤ 63) := by
  have e : (setup_translation true (fun _ => 0)
      { type := 2, cntl_id := 0, translation := 0, sectors := 16384,
        lchs := { heads := 0, cylinders := 0, spt := 0 },
        pchs := { heads := 256, cylinders := 1, spt := 64 } }).lchs =
      { heads := 256, cylinders := 1, spt := 64 } := by
    simp [setup_translation, get_translation, get_translation_heuristic,
      setup_translation_lchs, translation_switch, clip_cylinders, case_large, large_loop,
      u16, u8, u64, int32, TRANSLATION_LARGE, TRANSLATION_NONE, TRANSLATION_LBA,
      TRANSLATION_RECHS]
  refine ⟨e, ?_⟩
  rw [e]
  decide

/-- C4, amended: for every device whose selected policy is LBA, or whose
physical geometry has heads <= 127 and spt <= 63, the legacy geometry
stored by `setup_translation` satisfies cylinders <= 1024, heads <= 255 and
sectorsPerTrack <= 63. -/
theorem C4_legacy_bounds (coreboot : Bool) (inb_cmos : Nat → Nat) (d : drive_s)
    (hh : get_translation coreboot inb_cmos d = TRANSLATION_LBA ∨ d.pchs.heads ≤ 127)
    (hs : get_translation coreboot inb_cmos d = TRANSLATION_LBA ∨ d.pchs.spt ≤ 63) :
    (setup_translation coreboot inb_cmos d).lchs.cylinders ≤ 1024 ∧
    (setup_translation coreboot inb_cmos d).lchs.heads ≤ 255 ∧
    (setup_translation coreboot inb_cmos d).lchs.spt ≤ 63 := by
  rw [setup_translation_lchs_eq]
  exact setup_translation_lchs_bounds _ _ _ hh hs

/-- Witness of C4 (amended): an ATA disk with physical geometry
(16383, 16, 63) whose nvram field selects r-echs (code 3). -/
theorem C4_legacy_bounds_witness :
    (setup_translation false (fun _ => 3)
      { type := 2, cntl_id := 0, translation := 0, sectors := 16514064,
        lchs := { heads := 0, cylinders := 0, spt := 0 },
        pchs := { heads := 16, cylinders := 16383, spt := 63 } }).lchs.cylinders ≤ 1024 ∧
    (setup_translation false (fun _ => 3)
      { type := 2, cntl_id := 0, translation := 0, sectors := 16514064,
        lchs := { heads := 0, cylinders := 0, spt := 0 },
        pchs := { heads := 16, cylinders := 16383, spt := 63 } }).lchs.heads ≤ 255 ∧
    (setup_translation false (fun _ => 3)
      { type := 2, cntl_id := 0, translation := 0, sectors := 16514064,
        lchs := { heads := 0, cylinders := 0, spt := 0 },
        pchs := { heads := 16, cylinders := 16383, spt := 63 } }).lchs.spt ≤ 63 :=
  C4_legacy_bounds false (fun _ => 3) _ (Or.inr (by decide)) (Or.inr (by decide))

/-- C5: for every 16-bit physical geometry (c, h, s) the LargeCHS
translation stores spt = s and the pair (cylinders, heads) reached from
(c, h) by k steps (c, h) -> (c div 2, 2*h mod 2^16), where every step is
taken from a state with cylinders > 1024 whose heads (if produced by a
step) is at most 127, and the state after k steps has cylinders <= 1024 or
was produced by a step that left heads > 127; cylinders is then replaced
by min(cylinders, 1024). In particular a disk with physical geometry
(2000, 16, 63) whose policy is selected heuristically gets policy LargeCHS
and legacy geometry (1000, 32, 63). -/
theorem C5_large_chs_iteration (c h s sectors : Nat)
    (hc : c < 65536) (hh : h < 65536) (hs : s < 65536) :
    (∃ k : Nat,
      (∀ j, j < k → (large_step^[j] (c, h)).1 > 1024 ∧
        (0 < j → (large_step^[j] (c, h)).2 ≤ 127)) ∧
      ((large_step^[k] (c, h)).1 ≤ 1024 ∨ (0 < k ∧ (large_step^[k] (c, h)).2 > 127)) ∧
      setup_translation_lchs TRANSLATION_LARGE { heads := h, cylinders := c, spt := s }
          sectors =
        { heads := (large_step^[k] (c, h)).2,
          cylinders := min (large_step^[k] (c, h)).1 1024,
          spt := s }) ∧
    (∀ (coreboot : Bool) (inb_cmos : Nat → Nat) (d : drive_s),
      (coreboot = true ∨ u8 d.type ≠ DTYPE_ATA) →
      d.pchs = { heads := 16, cylinders := 2000, spt := 63 } →
      get_translation coreboot inb_cmos d = TRANSLATION_LARGE ∧
      (setup_translation coreboot inb_cmos d).lchs =
        { heads := 32, cylinders := 1000, spt := 63 }) := by
  constructor
  · obtain ⟨k, h1, h2, h3⟩ := large_loop_iterate c h hc
    refine ⟨k, h1, h2, ?_⟩
    have hsw : translation_switch TRANSLATION_LARGE (u64 sectors)
        { heads := h, cylinders := c, spt := s } =
        { heads := (large_step^[k] (c, h)).2, cylinders := (large_step^[k] (c, h)).1,
          spt := s } := by
      simp only [translation_switch, TRANSLATION_LARGE, TRANSLATION_NONE, TRANSLATION_LBA,
        TRANSLATION_RECHS, case_large, h3]
      rfl
    have hcl := clip_cylinders_cylinders (translation_switch TRANSLATION_LARGE (u64 sectors)
        { heads := h, cylinders := c, spt := s })
    have hhd := clip_cylinders_heads (translation_switch TRANSLATION_LARGE (u64 sectors)
        { heads := h, cylinders := c, spt := s })
    have hsp := clip_cylinders_spt (translation_switch TRANSLATION_LARGE (u64 sectors)
        { heads := h, cylinders := c, spt := s })
    rw [hsw] at hcl hhd hsp
    simp only [setup_translation_lchs, u16_of_lt hc, u16_of_lt hh, u16_of_lt hs, hsw]
    cases hres : clip_cylinders
      { heads := (large_step^[k] (c, h)).2, cylinders := (large_step^[k] (c, h)).1,
        spt := s } with
    | mk a b e =>
      rw [hres] at hcl hhd hsp
      simp only [] at hcl hhd hsp
      rw [hcl, hhd, hsp]
  · intro coreboot inb_cmos d hheur hp
    have hcond : ¬ (coreboot = false ∧ u8 d.type = DTYPE_ATA) := by
      rintro ⟨h1, h2⟩
      rcases hheur with h | h
      · rw [h1] at h
        exact Bool.noConfusion h
      · exact h h2
    have hget : get_translation coreboot inb_cmos d = TRANSLATION_LARGE := by
      unfold get_translation
      simp only [if_neg hcond, get_translation_heuristic, hp]
      simp [u16, int32, TRANSLATION_LARGE]
    refine ⟨hget, ?_⟩
    rw [setup_translation_lchs_eq, hget, hp]
    simp [setup_translation_lchs, translation_switch, clip_cylinders, case_large,
      large_loop, u16, TRANSLATION_LARGE, TRANSLATION_NONE, TRANSLATION_LBA,
      TRANSLATION_RECHS]

/-- Witness of C5: physical geometry (2000, 16, 63) with 2016000 sectors. -/
theorem C5_large_chs_iteration_witness :
    (∃ k : Nat,
      (∀ j, j < k → (large_step^[j] (2000, 16)).1 > 1024 ∧
        (0 < j → (large_step^[j] (2000, 16)).2 ≤ 127)) ∧
      ((large_step^[k] (2000, 16)).1 ≤ 1024 ∨
        (0 < k ∧ (large_step^[k] (2000, 16)).2 > 127)) ∧
      setup_translation_lchs TRANSLATION_LARGE { heads := 16, cylinders := 2000, spt := 63 }
          2016000 =
        { heads := (large_step^[k] (2000, 16)).2,
          cylinders := min (large_step^[k] (2000, 16)).1 1024,
          spt := 63 }) ∧
    (∀ (coreboot : Bool) (inb_cmos : Nat → Nat) (d : drive_s),
      (coreboot = true ∨ u8 d.type ≠ DTYPE_ATA) →
      d.pchs = { heads := 16, cylinders := 2000, spt := 63 } →
      get_translation coreboot inb_cmos d = TRANSLATION_LARGE ∧
      (setup_translation coreboot inb_cmos d).lchs =
        { heads := 32, cylinders := 1000, spt := 63 }) :=
  C5_large_chs_iteration 2000 16 63 2016000 (by decide) (by decide) (by decide)

/-- C6, as stated, fails: for physical geometry (2000, 64, 63), whose head
count 64 is at most 127, the head count takes the values 64, 128 during
the LargeCHS translation and the stored legacy heads is 128. -/
theorem C6_large_heads_counterexample :
    large_loop_heads (u16 2000) (u16 64) = [64, 128] ∧
    (setup_translation_lchs TRANSLATION_LARGE { heads := 64, cylinders := 2000, spt := 63 }
      8064000).heads = 128 ∧
    ¬ ((64 : Nat) ≤ 127 →
      (∀ x ∈ large_loop_heads (u16 2000) (u16 64), x ≤ 127) ∧
      (setup_translation_lchs TRANSLATION_LARGE
        { heads := 64, cylinders := 2000, spt := 63 } 8064000).heads ≤ 127) := by
  have e1 : large_loop_heads (u16 2000) (u16 64) = [64, 128] := by
    simp [large_loop_heads, u16]
  have e2 : (setup_translation_lchs TRANSLATION_LARGE
      { heads := 64, cylinders := 2000, spt := 63 } 8064000).heads = 128 := by
    simp [setup_translation_lchs, translation_switch, clip_cylinders, case_large,
      large_loop, u16, TRANSLATION_LARGE, TRANSLATION_NONE, TRANSLATION_LBA,
      TRANSLATION_RECHS]
  refine ⟨e1, e2, ?_⟩
  intro h
  have h2 := (h (by decide)).2
  rw [e2] at h2
  exact absurd h2 (by decide)

/-- C6, amended: for every physical geometry whose head count is at most
127, every value the head count takes during the LargeCHS translation is at
most 254: the values are a list of values that are each at most 127,
followed by the final stored legacy heads, which is at most 254. -/
theorem C6_large_heads_bound (c h s sectors : Nat) (hh : h ≤ 127) :
    (∃ l : List Nat,
      large_loop_heads (u16 c) (u16 h) =
        l ++ [(setup_translation_lchs TRANSLATION_LARGE
          { heads := h, cylinders := c, spt := s } sectors).heads] ∧
      ∀ x ∈ l, x ≤ 127) ∧
    (setup_translation_lchs TRANSLATION_LARGE
      { heads := h, cylinders := c, spt := s } sectors).heads ≤ 254 ∧
    ∀ x ∈ large_loop_heads (u16 c) (u16 h), x ≤ 254 := by
  have hh16 : u16 h ≤ 127 := Nat.le_trans (Nat.mod_le _ _) hh
  have hfin : (setup_translation_lchs TRANSLATION_LARGE
      { heads := h, cylinders := c, spt := s } sectors).heads =
      (large_loop (u16 c) (u16 h)).2 := by
    simp only [setup_translation_lchs, clip_cylinders_heads, translation_switch,
      TRANSLATION_LARGE, TRANSLATION_NONE, TRANSLATION_LBA, TRANSLATION_RECHS, case_large]
    rfl
  obtain ⟨l, h1, h2⟩ := large_loop_heads_spec (u16 c) (u16 h) hh16
  have hle := large_loop_snd_le (u16 c) (u16 h) hh16
  rw [hfin]
  refine ⟨⟨l, h1, h2⟩, hle, ?_⟩
  intro x hx
  rw [h1] at hx
  rcases List.mem_append.mp hx with hx | hx
  · exact Nat.le_trans (h2 x hx) (by decide)
  · rw [List.mem_singleton] at hx
    omega

/-- Witness of C6 (amended): physical geometry (65535, 1, 63). -/
theorem C6_large_heads_bound_witness :
    (∃ l : List Nat,
      large_loop_heads (u16 65535) (u16 1) =
        l ++ [(setup_translation_lchs TRANSLATION_LARGE
          { heads := 1, cylinders := 65535, spt := 63 } 4128705).heads] ∧
      ∀ x ∈ l, x ≤ 127) ∧
    (setup_translation_lchs TRANSLATION_LARGE
      { heads := 1, cylinders := 65535, spt := 63 } 4128705).heads ≤ 254 ∧
    ∀ x ∈ large_loop_heads (u16 65535) (u16 1), x ≤ 254 :=
  C6_large_heads_bound 65535 1 63 4128705 (by decide)

/-- C7, as stated, fails: for n = 1096641 sectors, g = n div 63 = 17407,
the LBA translation chooses heads = 16 although g div 16 = 1087 > 1024; the
smallest member h of the set with g div h <= 1024 is 32. -/
theorem C7_lba_heads_counterexample :
    (1096641 : Nat) ≤ 63 * 255 * 1024 ∧
    (setup_translation_lchs TRANSLATION_LBA { heads := 16, cylinders := 1088, spt := 63 }
      1096641).heads = 16 ∧
    ¬ (1096641 / 63 / 16 ≤ 1024) ∧
    1096641 / 63 / 32 ≤ 1024 := by
  refine ⟨by decide, ?_, by decide, by decide⟩
  rw [setup_translation_lchs_lba_small _ _ (by decide)]
  decide

/-- C7, amended: for every total sector count n <= 63*255*1024, with
g = n div 63, the legacy head count chosen by the LBA translation is the
smallest member h of the set 16, 32, 64, 128, 255 such that
g div 1024 <= h. -/
theorem C7_lba_heads_smallest (pchs : chs_s) (n : Nat) (hn : n ≤ 63 * 255 * 1024) :
    (setup_translation_lchs TRANSLATION_LBA pchs n).heads ∈ [16, 32, 64, 128, 255] ∧
    n / 63 / 1024 ≤ (setup_translation_lchs TRANSLATION_LBA pchs n).heads ∧
    ∀ h ∈ [16, 32, 64, 128, 255], n / 63 / 1024 ≤ h →
      (setup_translation_lchs TRANSLATION_LBA pchs n).heads ≤ h := by
  rw [setup_translation_lchs_lba_small pchs n hn]
  show lba_heads (n / 63 / 1024) ∈ [16, 32, 64, 128, 255] ∧
    n / 63 / 1024 ≤ lba_heads (n / 63 / 1024) ∧
    ∀ h ∈ [16, 32, 64, 128, 255], n / 63 / 1024 ≤ h → lba_heads (n / 63 / 1024) ≤ h
  have hq : n / 63 / 1024 ≤ 255 := by omega
  generalize n / 63 / 1024 = q at hq
  unfold lba_heads
  refine ⟨?_, ?_, ?_⟩
  · repeat' split
    all_goals simp
  · repeat' split
    all_goals omega
  · intro h hmem hle
    simp only [List.mem_cons, List.mem_singleton, List.not_mem_nil, or_false] at hmem
    repeat' split
    all_goals omega

/-- Witness of C7 (amended): a disk of 1096641 sectors. -/
theorem C7_lba_heads_smallest_witness :
    (setup_translation_lchs TRANSLATION_LBA { heads := 16, cylinders := 1088, spt := 63 }
      1096641).heads ∈ [16, 32, 64, 128, 255] ∧
    1096641 / 63 / 1024 ≤
      (setup_translation_lchs TRANSLATION_LBA { heads := 16, cylinders := 1088, spt := 63 }
        1096641).heads ∧
    ∀ h ∈ [16, 32, 64, 128, 255], 1096641 / 63 / 1024 ≤ h →
      (setup_translation_lchs TRANSLATION_LBA { heads := 16, cylinders := 1088, spt := 63 }
        1096641).heads ≤ h :=
  C7_lba_heads_smallest { heads := 16, cylinders := 1088, spt := 63 } 1096641 (by decide)

/-- C8: for every total sector count n <= 63*255*1024, with g = n div 63 and
q = g div 1024, the LBA translation stores spt = 63, heads = 16 if q <= 16,
32 if 16 < q <= 32, 64 if 32 < q <= 64, 128 if 64 < q <= 128 and 255
otherwise, and cylinders = min(g div heads, 1024); the divisor heads (the
value `lba_heads` yields) is never zero. This holds for the code after
policy selection run with the LBA code, and for the legacy geometry that
`setup_translation` stores into every drive record of n sectors for which
`get_translation` selects LBA. -/
theorem C8_lba_translation (pchs : chs_s) (n : Nat) (hn : n ≤ 63 * 255 * 1024) :
    (setup_translation_lchs TRANSLATION_LBA pchs n).spt = 63 ∧
    (setup_translation_lchs TRANSLATION_LBA pchs n).heads =
      (if n / 63 / 1024 ≤ 16 then 16
       else if n / 63 / 1024 ≤ 32 then 32
       else if n / 63 / 1024 ≤ 64 then 64
       else if n / 63 / 1024 ≤ 128 then 128
       else 255) ∧
    (setup_translation_lchs TRANSLATION_LBA pchs n).cylinders =
      min (n / 63 / (setup_translation_lchs TRANSLATION_LBA pchs n).heads) 1024 ∧
    (setup_translation_lchs TRANSLATION_LBA pchs n).heads ≠ 0 ∧
    (∀ x : Nat, lba_heads x ≠ 0) ∧
    ∀ (coreboot : Bool) (inb_cmos : Nat → Nat) (d : drive_s),
      d.sectors = n → get_translation coreboot inb_cmos d = TRANSLATION_LBA →
      (setup_translation coreboot inb_cmos d).translation = TRANSLATION_LBA ∧
      (setup_translation coreboot inb_cmos d).lchs.spt = 63 ∧
      (setup_translation coreboot inb_cmos d).lchs.heads =
        (if n / 63 / 1024 ≤ 16 then 16
         else if n / 63 / 1024 ≤ 32 then 32
         else if n / 63 / 1024 ≤ 64 then 64
         else if n / 63 / 1024 ≤ 128 then 128
         else 255) ∧
      (setup_translation coreboot inb_cmos d).lchs.cylinders =
        min (n / 63 / (setup_translation coreboot inb_cmos d).lchs.heads) 1024 ∧
      (setup_translation coreboot inb_cmos d).lchs.heads ≠ 0 := by
  have hge := lba_heads_ge (n / 63 / 1024)
  have hchain : lba_heads (n / 63 / 1024) =
      (if n / 63 / 1024 ≤ 16 then 16
       else if n / 63 / 1024 ≤ 32 then 32
       else if n / 63 / 1024 ≤ 64 then 64
       else if n / 63 / 1024 ≤ 128 then 128
       else 255) := by
    unfold lba_heads
    repeat' split
    all_goals omega
  have hmain : ∀ p : chs_s,
      (setup_translation_lchs TRANSLATION_LBA p n).spt = 63 ∧
      (setup_translation_lchs TRANSLATION_LBA p n).heads =
        (if n / 63 / 1024 ≤ 16 then 16
         else if n / 63 / 1024 ≤ 32 then 32
         else if n / 63 / 1024 ≤ 64 then 64
         else if n / 63 / 1024 ≤ 128 then 128
         else 255) ∧
      (setup_translation_lchs TRANSLATION_LBA p n).cylinders =
        min (n / 63 / (setup_translation_lchs TRANSLATION_LBA p n).heads) 1024 ∧
      (setup_translation_lchs TRANSLATION_LBA p n).heads ≠ 0 := by
    intro p
    rw [setup_translation_lchs_lba_small p n hn]
    refine ⟨rfl, hchain, rfl, ?_⟩
    show lba_heads (n / 63 / 1024) ≠ 0
    omega
  obtain ⟨m1, m2, m3, m4⟩ := hmain pchs
  refine ⟨m1, m2, m3, m4, ?_, ?_⟩
  · intro x
    have := lba_heads_ge x
    omega
  · intro coreboot inb_cmos d hsec hpol
    refine ⟨by rw [setup_translation_translation, hpol], ?_⟩
    rw [setup_translation_lchs_eq, hpol, hsec]
    exact hmain d.pchs

/-- Witness of C8: a disk of 8257536 sectors (q = 128) with physical
geometry (16383, 16, 63) in a coreboot build gets the LBA policy, and
`setup_translation` stores the legacy geometry (1024, 128, 63). -/
theorem C8_lba_translation_witness :
    get_translation true (fun _ => 0)
      { type := 2, cntl_id := 0, translation := 0, sectors := 8257536,
        lchs := { heads := 0, cylinders := 0, spt := 0 },
        pchs := { heads := 16, cylinders := 16383, spt := 63 } } = TRANSLATION_LBA ∧
    (setup_translation true (fun _ => 0)
      { type := 2, cntl_id := 0, translation := 0, sectors := 8257536,
        lchs := { heads := 0, cylinders := 0, spt := 0 },
        pchs := { heads := 16, cylinders := 16383, spt := 63 } }).lchs =
      { heads := 128, cylinders := 1024, spt := 63 } := by
  have hpol : get_translation true (fun _ => 0)
      { type := 2, cntl_id := 0, translation := 0, sectors := 8257536,
        lchs := { heads := 0, cylinders := 0, spt := 0 },
        pchs := { heads := 16, cylinders := 16383, spt := 63 } } = TRANSLATION_LBA := by
    simp [get_translation, get_translation_heuristic, u16, int32, TRANSLATION_LBA]
  have h := (C8_lba_translation { heads := 16, cylinders := 16383, spt := 63 } 8257536
    (by decide)).2.2.2.2.2 true (fun _ => 0)
    { type := 2, cntl_id := 0, translation := 0, sectors := 8257536,
      lchs := { heads := 0, cylinders := 0, spt := 0 },
      pchs := { heads := 16, cylinders := 16383, spt := 63 } } rfl hpol
  refine ⟨hpol, ?_⟩
  cases hres : (setup_translation true (fun _ => 0)
    { type := 2, cntl_id := 0, translation := 0, sectors := 8257536,
      lchs := { heads := 0, cylinders := 0, spt := 0 },
      pchs := { heads := 16, cylinders := 16383, spt := 63 } }).lchs with
  | mk a b e =>
    rw [hres] at h
    simp only [] at h
    obtain ⟨_, h1, h2, h3, _⟩ := h
    have h2b : a = 128 := by
      rw [h2]
      decide
    rw [h2b] at h3
    have h3b : b = 1024 := by
      rw [h3]
      decide
    rw [h1, h2b, h3b]

/-- C9, evaluation at the failing input: for physical geometry
(cylinders 65535, heads 65535, spt 63) the product computed in `int` is
-131071, the heuristic of `get_translation` returns LargeCHS, and the exact
product 4294836225 is greater than 131072. -/
theorem C9_heuristic_product_overflow :
    int32 (65535 * 65535) = -131071 ∧
    get_translation true (fun _ => 0)
      { type := 2, cntl_id := 0, translation := 0, sectors := 4294836225 * 63,
        lchs := { heads := 0, cylinders := 0, spt := 0 },
        pchs := { heads := 65535, cylinders := 65535, spt := 63 } } = TRANSLATION_LARGE ∧
    ¬ (65535 * 65535 ≤ 131072) := by
  refine ⟨by decide, ?_, by decide⟩
  simp [get_translation, get_translation_heuristic, u16, int32, TRANSLATION_LARGE]

/-- C10: for every 16-bit physical geometry (c, h, s), the r-echs
translation equals the LargeCHS translation applied to the adjusted
geometry (c', h', s), where (c', h') = (floor(min(c, 61439) * 16 / 15), 15)
when h = 16 and (c', h') = (c, h) when h != 16. -/
theorem C10_rechs_is_large_after_adjust (c h s sectors : Nat)
    (hc : c < 65536) (hh : h < 65536) :
    setup_translation_lchs TRANSLATION_RECHS { heads := h, cylinders := c, spt := s }
        sectors =
      setup_translation_lchs TRANSLATION_LARGE
        (if h = 16 then { heads := 15, cylinders := min c 61439 * 16 / 15, spt := s }
         else { heads := h, cylinders := c, spt := s })
        sectors := by
  have hsw1 : ∀ l : chs_s, translation_switch TRANSLATION_RECHS (u64 sectors) l =
      case_large (rechs_adjust l) := by
    intro l
    simp [translation_switch, TRANSLATION_RECHS, TRANSLATION_NONE, TRANSLATION_LBA]
  have hsw2 : ∀ l : chs_s, translation_switch TRANSLATION_LARGE (u64 sectors) l =
      case_large l := by
    intro l
    simp [translation_switch, TRANSLATION_RECHS, TRANSLATION_NONE, TRANSLATION_LBA,
      TRANSLATION_LARGE]
  simp only [setup_translation_lchs, hsw1, hsw2, u16_of_lt hc, u16_of_lt hh, rechs_adjust_eq]
  by_cases h16 : h = 16
  · have hle : min c 61439 ≤ 61439 := Nat.min_le_right _ _
    have e3 : u16 (min c 61439 * 16 / 15) = min c 61439 * 16 / 15 := u16_of_lt (by omega)
    have e4 : u16 15 = 15 := rfl
    simp only [if_pos h16, e3, e4]
  · simp only [if_neg h16, u16_of_lt hc, u16_of_lt hh]

/-- Witness of C10: physical geometry (65535, 16, 63), both sides evaluated:
r-echs clips to 61439 cylinders, rescales to (65534, 15) and the loop and
the clip leave legacy geometry (1024, 240, 63). -/
theorem C10_rechs_is_large_after_adjust_witness :
    setup_translation_lchs TRANSLATION_RECHS { heads := 16, cylinders := 65535, spt := 63 }
        66059280 =
      setup_translation_lchs TRANSLATION_LARGE
        (if 16 = 16 then { heads := 15, cylinders := min 65535 61439 * 16 / 15, spt := 63 }
         else { heads := 16, cylinders := 65535, spt := 63 })
        66059280 ∧
    setup_translation_lchs TRANSLATION_RECHS { heads := 16, cylinders := 65535, spt := 63 }
        66059280 = { heads := 240, cylinders := 1024, spt := 63 } := by
  refine ⟨C10_rechs_is_large_after_adjust 65535 16 63 66059280 (by decide) (by decide), ?_⟩
  simp [setup_translation_lchs, translation_switch, clip_cylinders, case_large,
    rechs_adjust, large_loop, u16, u32, TRANSLATION_LARGE, TRANSLATION_NONE,
    TRANSLATION_LBA, TRANSLATION_RECHS]

/-- C11, as stated, fails: a disk whose legacy geometry equals its
physical geometry (1024, 16, 63), mapped into slot 0 over zeroed descriptor
memory, gets a descriptor in the standard format, whose checksum byte is
not written: the byte sum is 797, that is 29 modulo 256. -/
theorem C11_fdpt_checksum_counterexample :
    (fdpt_bytes ((map_hd_drive pc_platform (machine_with (fun _ => plain_disk)) 0).fdpt 0)).sum
      = 797 ∧
    ¬ ((fdpt_bytes
      ((map_hd_drive pc_platform (machine_with (fun _ => plain_disk)) 0).fdpt 0)).sum % 256
        = 0) := by
  constructor <;> decide

/-- C11, amended: for every fixed disk placed by `map_hd_drive` into slot 0
or 1 whose descriptor is built in the translated format (the legacy
geometry `fill_fdpt` reads differs from the physical geometry it reads),
and whatever the descriptor memory held before, the sum of all bytes of the
descriptor `fdpt[slot]`, checksum byte included, is 0 modulo 256. -/
theorem C11_fdpt_checksum (pf : platform_s) (s : machine_s) (driveid : Nat)
    (hslot : u8 s.bda.hdcount ≤ 1) (hcap : u8 s.bda.hdcount < pf.max_extdrive)
    (hgeom : ¬ (u16 (s.Drives.drives (u8 s.bda.hdcount)).lchs.cylinders =
        u16 (s.Drives.drives (u8 s.bda.hdcount)).pchs.cylinders ∧
      u16 (s.Drives.drives (u8 s.bda.hdcount)).lchs.heads =
        u16 (s.Drives.drives (u8 s.bda.hdcount)).pchs.heads ∧
      u16 (s.Drives.drives (u8 s.bda.hdcount)).lchs.spt =
        u16 (s.Drives.drives (u8 s.bda.hdcount)).pchs.spt)) :
    (fdpt_bytes ((map_hd_drive pf s driveid).fdpt (u8 s.bda.hdcount))).sum % 256 = 0 := by
  unfold map_hd_drive
  simp only []
  rw [if_neg (by omega)]
  exact fill_fdpt_translated_checksum pf _ _ hslot hgeom

/-- Witness of C11 (amended): a disk with legacy geometry (1024, 255, 63)
and physical geometry (16383, 16, 63) mapped into slot 0. -/
theorem C11_fdpt_checksum_witness :
    (fdpt_bytes ((map_hd_drive pc_platform (machine_with (fun _ => lba_disk)) 0).fdpt
      (u8 (machine_with (fun _ => lba_disk)).bda.hdcount))).sum % 256 = 0 :=
  C11_fdpt_checksum pc_platform (machine_with (fun _ => lba_disk)) 0 (by decide) (by decide)
    (by decide)

/-- C12, evaluation at the failing input: the drive table holds a floppy
drive at index 0 and a disk with legacy geometry (1024, 255, 63) and
physical geometry (16383, 16, 63) at index 1; `map_hd_drive(1)` with no
fixed disk mapped yet assigns slot 0 to drive id 1, and the descriptor
`fdpt[0]` holds the geometry of the floppy drive: cylinders 80, heads 2,
sectors 18, landing zone 80, and bit 3 of the drive-control byte clear. -/
theorem C12_fdpt_describes_wrong_drive :
    (map_hd_drive pc_platform
      (machine_with (fun i => if i = 0 then floppy_drive else lba_disk)) 1).Drives.idmap
        EXTTYPE_HD 0 = 1 ∧
    ((machine_with (fun i => if i = 0 then floppy_drive else lba_disk)).Drives.drives 1).lchs
      = { heads := 255, cylinders := 1024, spt := 63 } ∧
    ((machine_with (fun i => if i = 0 then floppy_drive else lba_disk)).Drives.drives 1).pchs
      = { heads := 16, cylinders := 16383, spt := 63 } ∧
    ((map_hd_drive pc_platform
      (machine_with (fun i => if i = 0 then floppy_drive else lba_disk)) 1).fdpt 0).cylinders
        = 80 ∧
    ((map_hd_drive pc_platform
      (machine_with (fun i => if i = 0 then floppy_drive else lba_disk)) 1).fdpt 0).heads
        = 2 ∧
    ((map_hd_drive pc_platform
      (machine_with (fun i => if i = 0 then floppy_drive else lba_disk)) 1).fdpt 0).sectors
        = 18 ∧
    ((map_hd_drive pc_platform
      (machine_with (fun i => if i = 0 then floppy_drive else lba_disk)) 1).fdpt 0).landing_zone
        = 80 ∧
    ((map_hd_drive pc_platform
      (machine_with (fun i => if i = 0 then floppy_drive else lba_disk))
        1).fdpt 0).drive_control_byte &&& 8 = 0 := by
  refine ⟨?_, ?_, ?_, ?_, ?_, ?_, ?_, ?_⟩ <;> decide

/-- C13, evaluation at the failing input: for slot 0 holding a disk whose
legacy geometry equals its physical geometry, `fill_fdpt` writes the
descriptor `fdpt[0]` and returns before the interrupt vector is set:
vector 0x41 keeps its old value (0, 0) instead of the segment of the
extended BIOS data area and the offset of `fdpt[0]`; the same holds when
`map_hd_drive` maps the disk. -/
theorem C13_vector_not_set_when_untranslated :
    ((fill_fdpt pc_platform (machine_with (fun _ => plain_disk)) 0).fdpt 0).cylinders = 1024 ∧
    (fill_fdpt pc_platform (machine_with (fun _ => plain_disk)) 0).ivt 65 = (0, 0) ∧
    (map_hd_drive pc_platform (machine_with (fun _ => plain_disk)) 0).ivt 65 = (0, 0) ∧
    (pc_platform.ebda_seg, pc_platform.fdpt_offset 0) = (40896, 61) := by
  refine ⟨?_, ?_, ?_, ?_⟩ <;> decide

/-- C14: for every sequence of `map_floppy_drive`, `map_cd_drive` and
`map_hd_drive` calls (drive ids below 256, at most 255 entries per row of
`idmap`) starting from the state `drive_setup` leaves with the fixed-disk
count of the BIOS data area 0, the i-th registration of a class that finds
room (i below the capacity, counted from 0) has its drive id at
`idmap[class][i]`, and no later sequence of calls of any mapping function,
dropped calls included, changes that entry. -/
theorem C14_idmap_order_stable (pf : platform_s) (s : machine_s)
    (cs later : List map_call) (t i : Nat)
    (hcap : pf.max_extdrive ≤ 255) (hs : u8 s.bda.hdcount = 0)
    (hid : ∀ c ∈ cs ++ later, c.driveid < 256)
    (ht : t ≤ 2) (hi : i < (class_ids t cs).length) (hic : i < pf.max_extdrive) :
    (class_ids t cs)[i]? = some ((run_calls pf (drive_setup s) cs).Drives.idmap t i) ∧
    (run_calls pf (drive_setup s) (cs ++ later)).Drives.idmap t i =
      (run_calls pf (drive_setup s) cs).Drives.idmap t i := by
  have h0 := class_count_drive_setup s hs t
  have hidl : ∀ c ∈ cs, c.driveid < 256 := fun c hc => hid c (List.mem_append_left _ hc)
  have h1 := (run_calls_inv pf hcap (drive_setup s) t ht h0 cs hidl).2 i (by omega)
  have hlen : (class_ids t (cs ++ later)).length =
      (class_ids t cs).length + (class_ids t later).length := by
    simp [class_ids, List.filter_append]
  have h2 := (run_calls_inv pf hcap (drive_setup s) t ht h0 (cs ++ later) hid).2 i (by omega)
  have happ : class_ids t (cs ++ later) = class_ids t cs ++ class_ids t later := by
    simp [class_ids, List.filter_append]
  rw [happ, List.getElem?_append_left hi, h1] at h2
  exact ⟨h1, (Option.some.inj h2).symm⟩

/-- Witness of C14: a floppy (id 0), two disks (ids 1, 2), then an optical
drive (id 3) and a further disk (id 4): the entry of the second disk,
`idmap[EXTTYPE_HD][1]`, holds 2 and is kept. -/
theorem C14_idmap_order_stable_witness :
    (class_ids 1 [map_call.floppy 0, map_call.hd 1, map_call.hd 2])[1]? =
      some ((run_calls pc_platform (drive_setup (machine_with (fun _ => plain_disk)))
        [map_call.floppy 0, map_call.hd 1, map_call.hd 2]).Drives.idmap 1 1) ∧
    (run_calls pc_platform (drive_setup (machine_with (fun _ => plain_disk)))
      ([map_call.floppy 0, map_call.hd 1, map_call.hd 2] ++
        [map_call.cd 3, map_call.hd 4])).Drives.idmap 1 1 =
      (run_calls pc_platform (drive_setup (machine_with (fun _ => plain_disk)))
        [map_call.floppy 0, map_call.hd 1, map_call.hd 2]).Drives.idmap 1 1 :=
  C14_idmap_order_stable pc_platform (machine_with (fun _ => plain_disk))
    [map_call.floppy 0, map_call.hd 1, map_call.hd 2] [map_call.cd 3, map_call.hd 4] 1 1
    (by decide) (by decide) (by decide) (by decide) (by decide) (by decide)

/-- C15: for each of `map_hd_drive`, `map_cd_drive` and `map_floppy_drive`,
when the count of the class has reached the capacity of a row of `idmap`
(it equals the capacity, or exceeds it), the call returns the state it was
given: no `idmap` entry, counter, equipment indicator, descriptor or
interrupt vector is changed. -/
theorem C15_map_at_capacity_is_noop (pf : platform_s) (s : machine_s) (driveid : Nat) :
    (pf.max_extdrive ≤ u8 s.bda.hdcount → map_hd_drive pf s driveid = s) ∧
    (pf.max_extdrive ≤ u8 s.Drives.cdcount → map_cd_drive pf s driveid = s) ∧
    (pf.max_extdrive ≤ u8 s.Drives.floppycount → map_floppy_drive pf s driveid = s) :=
  ⟨fun h => map_hd_drive_full pf s driveid h, fun h => map_cd_drive_full pf s driveid h,
    fun h => map_floppy_drive_full pf s driveid h⟩

/-- Witness of C15: a machine whose three counts equal the capacity 16. -/
theorem C15_map_at_capacity_is_noop_witness :
    map_hd_drive pc_platform
      { machine_with (fun _ => plain_disk) with
        Drives := { drives := fun _ => plain_disk, floppycount := 16, cdcount := 16,
                    idmap := fun _ i => i }
        bda := { hdcount := 16, equipment_list_flags := 65, floppy_harddisk_info := 119 } } 7 =
      { machine_with (fun _ => plain_disk) with
        Drives := { drives := fun _ => plain_disk, floppycount := 16, cdcount := 16,
                    idmap := fun _ i => i }
        bda := { hdcount := 16, equipment_list_flags := 65, floppy_harddisk_info := 119 } } ∧
    map_cd_drive pc_platform
      { machine_with (fun _ => plain_disk) with
        Drives := { drives := fun _ => plain_disk, floppycount := 16, cdcount := 16,
                    idmap := fun _ i => i }
        bda := { hdcount := 16, equipment_list_flags := 65, floppy_harddisk_info := 119 } } 7 =
      { machine_with (fun _ => plain_disk) with
        Drives := { drives := fun _ => plain_disk, floppycount := 16, cdcount := 16,
                    idmap := fun _ i => i }
        bda := { hdcount := 16, equipment_list_flags := 65, floppy_harddisk_info := 119 } } ∧
    map_floppy_drive pc_platform
      { machine_with (fun _ => plain_disk) with
        Drives := { drives := fun _ => plain_disk, floppycount := 16, cdcount := 16,
                    idmap := fun _ i => i }
        bda := { hdcount := 16, equipment_list_flags := 65, floppy_harddisk_info := 119 } } 7 =
      { machine_with (fun _ => plain_disk) with
        Drives := { drives := fun _ => plain_disk, floppycount := 16, cdcount := 16,
                    idmap := fun _ i => i }
        bda := { hdcount := 16, equipment_list_flags := 65, floppy_harddisk_info := 119 } } :=
  ⟨(C15_map_at_capacity_is_noop pc_platform _ 7).1 (by decide),
   (C15_map_at_capacity_is_noop pc_platform _ 7).2.1 (by decide),
   (C15_map_at_capacity_is_noop pc_platform _ 7).2.2 (by decide)⟩

/-- C16: starting from the state `drive_setup` leaves, with any initial
equipment word, three floppy registrations (drive ids below 256, a row of
`idmap` holding between 3 and 255 entries) get the class-relative indices
0, 1, 2 in that order; after the first, `equipment_list_flags` has bit 0x01
set and `floppy_harddisk_info` is 0x07; after the second,
`equipment_list_flags` has the bits 0x41 set and `floppy_harddisk_info` is
0x77; the third registration and every later call of a mapping function
leave both indicators as they were after the second. -/
theorem C16_three_floppies (pf : platform_s) (s : machine_s) (id0 id1 id2 : Nat)
    (later : List map_call)
    (hcap3 : 3 ≤ pf.max_extdrive) (hcap : pf.max_extdrive ≤ 255)
    (h0 : id0 < 256) (h1 : id1 < 256) (h2 : id2 < 256) :
    (run_calls pf (drive_setup s) [map_call.floppy id0]).Drives.idmap EXTTYPE_FLOPPY 0 = id0 ∧
    (run_calls pf (drive_setup s)
      [map_call.floppy id0, map_call.floppy id1]).Drives.idmap EXTTYPE_FLOPPY 1 = id1 ∧
    (run_calls pf (drive_setup s)
      [map_call.floppy id0, map_call.floppy id1, map_call.floppy id2]).Drives.idmap
        EXTTYPE_FLOPPY 0 = id0 ∧
    (run_calls pf (drive_setup s)
      [map_call.floppy id0, map_call.floppy id1, map_call.floppy id2]).Drives.idmap
        EXTTYPE_FLOPPY 1 = id1 ∧
    (run_calls pf (drive_setup s)
      [map_call.floppy id0, map_call.floppy id1, map_call.floppy id2]).Drives.idmap
        EXTTYPE_FLOPPY 2 = id2 ∧
    (run_calls pf (drive_setup s) [map_call.floppy id0]).bda.equipment_list_flags &&& 1 = 1 ∧
    (run_calls pf (drive_setup s) [map_call.floppy id0]).bda.floppy_harddisk_info = 7 ∧
    (run_calls pf (drive_setup s)
      [map_call.floppy id0, map_call.floppy id1]).bda.equipment_list_flags &&& 65 = 65 ∧
    (run_calls pf (drive_setup s)
      [map_call.floppy id0, map_call.floppy id1]).bda.floppy_harddisk_info = 119 ∧
    (run_calls pf (drive_setup s)
      ([map_call.floppy id0, map_call.floppy id1] ++
        (map_call.floppy id2 :: later))).bda.equipment_list_flags =
      (run_calls pf (drive_setup s)
        [map_call.floppy id0, map_call.floppy id1]).bda.equipment_list_flags ∧
    (run_calls pf (drive_setup s)
      ([map_call.floppy id0, map_call.floppy id1] ++
        (map_call.floppy id2 :: later))).bda.floppy_harddisk_info =
      (run_calls pf (drive_setup s)
        [map_call.floppy id0, map_call.floppy id1]).bda.floppy_harddisk_info := by
  have hz : class_count (drive_setup s) EXTTYPE_FLOPPY = 0 := by
    rw [class_count_floppy]
    rfl
  have hF : EXTTYPE_FLOPPY ≤ 2 := by decide
  have inv1 := (run_calls_inv pf hcap (drive_setup s) EXTTYPE_FLOPPY hF hz
    [map_call.floppy id0] (by
      intro c hc
      simp only [List.mem_cons, List.mem_singleton, List.not_mem_nil, or_false] at hc
      subst hc
      exact h0)).2
  have inv2 := (run_calls_inv pf hcap (drive_setup s) EXTTYPE_FLOPPY hF hz
    [map_call.floppy id0, map_call.floppy id1] (by
      intro c hc
      simp only [List.mem_cons, List.mem_singleton, List.not_mem_nil, or_false] at hc
      rcases hc with hc | hc <;> subst hc
      · exact h0
      · exact h1)).2
  have inv3 := (run_calls_inv pf hcap (drive_setup s) EXTTYPE_FLOPPY hF hz
    [map_call.floppy id0, map_call.floppy id1, map_call.floppy id2] (by
      intro c hc
      simp only [List.mem_cons, List.mem_singleton, List.not_mem_nil, or_false] at hc
      rcases hc with hc | hc | hc <;> subst hc
      · exact h0
      · exact h1
      · exact h2)).2
  have c1 : class_ids EXTTYPE_FLOPPY [map_call.floppy id0] = [id0] := rfl
  have c2 : class_ids EXTTYPE_FLOPPY [map_call.floppy id0, map_call.floppy id1] =
      [id0, id1] := rfl
  have c3 : class_ids EXTTYPE_FLOPPY
      [map_call.floppy id0, map_call.floppy id1, map_call.floppy id2] = [id0, id1, id2] := rfl
  rw [c1] at inv1
  rw [c2] at inv2
  rw [c3] at inv3
  have a10 := inv1 0 (by simp; omega)
  have a21 := inv2 1 (by simp; omega)
  have a30 := inv3 0 (by simp; omega)
  have a31 := inv3 1 (by simp; omega)
  have a32 := inv3 2 (by simp; omega)
  obtain ⟨f1, i1, f2, i2, cnt2⟩ := two_floppies pf hcap3 s id0 id1
  have hx := u16_lt s.bda.equipment_list_flags
  have e1 : u16 (u16 s.bda.equipment_list_flags ||| 1) = u16 s.bda.equipment_list_flags ||| 1 :=
    u16_or_of_lt hx (by decide)
  have hfix : u16 (u16 (run_calls pf (drive_setup s)
      [map_call.floppy id0, map_call.floppy id1]).bda.equipment_list_flags ||| 65) =
      (run_calls pf (drive_setup s)
        [map_call.floppy id0, map_call.floppy id1]).bda.equipment_list_flags := by
    rw [f2]
    exact u16_or_or _ 65 (by decide)
  have hlater := run_calls_indicators pf hcap (map_call.floppy id2 :: later)
    (run_calls pf (drive_setup s) [map_call.floppy id0, map_call.floppy id1])
    (by rw [cnt2]) hfix i2
  rw [← run_calls_append] at hlater
  refine ⟨?_, ?_, ?_, ?_, ?_, ?_, i1, ?_, i2, hlater.1, hlater.2⟩
  · exact (Option.some.inj a10).symm
  · exact (Option.some.inj a21).symm
  · exact (Option.some.inj a30).symm
  · exact (Option.some.inj a31).symm
  · exact (Option.some.inj a32).symm
  · rw [f1, e1]
    exact or_and_self_right _ 1
  · rw [f2]
    have hy := u16_lt (u16 (u16 s.bda.equipment_list_flags ||| 1))
    rw [u16_or_of_lt hy (by decide)]
    exact or_and_self_right _ 65

/-- Witness of C16: floppies with drive ids 0, 1, 2 on a machine whose
equipment word is 0, followed by a fourth floppy and a disk. -/
theorem C16_three_floppies_witness :
    (run_calls pc_platform (drive_setup (machine_with (fun _ => floppy_drive)))
      [map_call.floppy 0, map_call.floppy 1, map_call.floppy 2]).Drives.idmap
        EXTTYPE_FLOPPY 2 = 2 ∧
    (run_calls pc_platform (drive_setup (machine_with (fun _ => floppy_drive)))
      [map_call.floppy 0, map_call.floppy 1]).bda.equipment_list_flags &&& 65 = 65 ∧
    (run_calls pc_platform (drive_setup (machine_with (fun _ => floppy_drive)))
      ([map_call.floppy 0, map_call.floppy 1] ++
        (map_call.floppy 2 :: [map_call.floppy 3, map_call.hd 4]))).bda.equipment_list_flags =
      (run_calls pc_platform (drive_setup (machine_with (fun _ => floppy_drive)))
        [map_call.floppy 0, map_call.floppy 1]).bda.equipment_list_flags :=
  have h := C16_three_floppies pc_platform (machine_with (fun _ => floppy_drive)) 0 1 2
    [map_call.floppy 3, map_call.hd 4] (by decide) (by decide) (by decide) (by decide)
    (by decide)
  ⟨h.2.2.2.2.1, h.2.2.2.2.2.2.2.1, h.2.2.2.2.2.2.2.2.2.1⟩

/-- C17: for every disk operation request whose device's class in the
registry is none of Floppy, ATA, ATAPI, RAMDisk, `process_op` and
`__send_disk_op` call no transport driver, return `DISK_RET_EPARAM`, and
the record written back to the caller is the original request with count
0; in particular this holds for every device id right after `drive_setup`. -/
theorem C17_unknown_class_rejected (drv : drivers_s) (D : drives_s) (op : disk_op_s)
    (hf : u8 (D.drives (u8 op.driveid)).type ≠ DTYPE_FLOPPY)
    (ha : u8 (D.drives (u8 op.driveid)).type ≠ DTYPE_ATA)
    (hp : u8 (D.drives (u8 op.driveid)).type ≠ DTYPE_ATAPI)
    (hr : u8 (D.drives (u8 op.driveid)).type ≠ DTYPE_RAMDISK) :
    process_op drv D op =
      { status := DISK_RET_EPARAM, op := { op with count := 0 }, called := [] } ∧
    __send_disk_op drv D op =
      { status := DISK_RET_EPARAM, op := { op with count := 0 }, called := [] } ∧
    ∀ (s : machine_s) (op2 : disk_op_s),
      __send_disk_op drv (drive_setup s).Drives op2 =
        { status := DISK_RET_EPARAM, op := { op2 with count := 0 }, called := [] } := by
  have hgen : ∀ (D2 : drives_s) (o : disk_op_s),
      u8 (D2.drives (u8 o.driveid)).type ≠ DTYPE_FLOPPY →
      u8 (D2.drives (u8 o.driveid)).type ≠ DTYPE_ATA →
      u8 (D2.drives (u8 o.driveid)).type ≠ DTYPE_ATAPI →
      u8 (D2.drives (u8 o.driveid)).type ≠ DTYPE_RAMDISK →
      process_op drv D2 o =
        { status := DISK_RET_EPARAM, op := { o with count := 0 }, called := [] } := by
    intro D2 o h1 h2 h3 h4
    unfold process_op
    simp only []
    rw [if_neg h1, if_neg h2, if_neg h3, if_neg h4]
  have hsend : ∀ (D2 : drives_s) (o : disk_op_s),
      process_op drv D2 o =
        { status := DISK_RET_EPARAM, op := { o with count := 0 }, called := [] } →
      __send_disk_op drv D2 o =
        { status := DISK_RET_EPARAM, op := { o with count := 0 }, called := [] } := by
    intro D2 o h
    unfold __send_disk_op
    simp only []
    rw [h]
    rfl
  refine ⟨hgen D op hf ha hp hr, hsend D op (hgen D op hf ha hp hr), ?_⟩
  intro s op2
  apply hsend
  apply hgen
  · show u8 0 ≠ DTYPE_FLOPPY
    decide
  · show u8 0 ≠ DTYPE_ATA
    decide
  · show u8 0 ≠ DTYPE_ATAPI
    decide
  · show u8 0 ≠ DTYPE_RAMDISK
    decide

/-- Witness of C17: a read of 5 sectors from device id 3, whose record has
the class code 9, with transport drivers that would report success. -/
theorem C17_unknown_class_rejected_witness :
    __send_disk_op
      { process_floppy_op := fun o => (0, o), process_ata_op := fun o => (0, o),
        process_atapi_op := fun o => (0, o), process_ramdisk_op := fun o => (0, o) }
      (machine_with (fun _ => { plain_disk with type := 9 })).Drives
      { lba := 100, buf_fl := 4096, count := 5, driveid := 3, command := 2 } =
      { status := DISK_RET_EPARAM,
        op := { lba := 100, buf_fl := 4096, count := 0, driveid := 3, command := 2 },
        called := [] } :=
  (C17_unknown_class_rejected
    { process_floppy_op := fun o => (0, o), process_ata_op := fun o => (0, o),
      process_atapi_op := fun o => (0, o), process_ramdisk_op := fun o => (0, o) }
    (machine_with (fun _ => { plain_disk with type := 9 })).Drives
    { lba := 100, buf_fl := 4096, count := 5, driveid := 3, command := 2 }
    (by decide) (by decide) (by decide) (by decide)).2.1

/-- C18: in a non-coreboot build, for every ATA device with controller id
a and every content of the configuration bytes, `get_translation` returns
the 2-bit field (cmos[CMOS_BIOS_DISKTRANSFLAG + (a div 2) div 2] >>
(2 * (a mod 4))) & 3; so when the byte of the device packs four codes as
t0 | t1<<2 | t2<<4 | t3<<6, the device reads back t_(a mod 4), untouched by
the other three fields. -/
theorem C18_nvram_translation_field (inb_cmos : Nat → Nat) (d : drive_s) (a : Nat)
    (hata : u8 d.type = DTYPE_ATA) (ha : d.cntl_id = a) (ha8 : a < 256)
    (hbyte : ∀ i, inb_cmos i < 256) :
    get_translation false inb_cmos d =
      (inb_cmos (CMOS_BIOS_DISKTRANSFLAG + a / 2 / 2) >>> (2 * (a % 4))) &&& 3 ∧
    ∀ t0 t1 t2 t3 : Nat, t0 < 4 → t1 < 4 → t2 < 4 → t3 < 4 →
      inb_cmos (CMOS_BIOS_DISKTRANSFLAG + a / 2 / 2) =
        (t0 ||| t1 <<< 2 ||| t2 <<< 4 ||| t3 <<< 6) →
      get_translation false inb_cmos d =
        if a % 4 = 0 then t0 else if a % 4 = 1 then t1
        else if a % 4 = 2 then t2 else t3 := by
  have e1 : u8 d.cntl_id = a := by
    rw [ha]
    exact Nat.mod_eq_of_lt ha8
  have e2 : u8 (inb_cmos (CMOS_BIOS_DISKTRANSFLAG + a / 2 / 2)) =
      inb_cmos (CMOS_BIOS_DISKTRANSFLAG + a / 2 / 2) := Nat.mod_eq_of_lt (hbyte _)
  have hmain := get_translation_nvram inb_cmos d hata
  rw [e1, e2] at hmain
  refine ⟨hmain, ?_⟩
  intro t0 t1 t2 t3 h0 h1 h2 h3 hpack
  rw [hmain, hpack]
  exact unpack_fields ⟨t0, h0⟩ ⟨t1, h1⟩ ⟨t2, h2⟩ ⟨t3, h3⟩ ⟨a % 4, Nat.mod_lt _ (by decide)⟩

/-- Witness of C18: the slave of the second channel (controller id 3) with
the configuration byte 0x39 holding 0x6c = 0 | 3<<2 | 2<<4 | 1<<6 reads
the code 1 (LBA). -/
theorem C18_nvram_translation_field_witness :
    get_translation false (fun i => if i = 57 then 108 else 0)
      { type := 2, cntl_id := 3, translation := 0, sectors := 0,
        lchs := { heads := 0, cylinders := 0, spt := 0 },
        pchs := { heads := 16, cylinders := 1024, spt := 63 } } = TRANSLATION_LBA := by
  have h := (C18_nvram_translation_field (fun i => if i = 57 then 108 else 0)
    { type := 2, cntl_id := 3, translation := 0, sectors := 0,
      lchs := { heads := 0, cylinders := 0, spt := 0 },
      pchs := { heads := 16, cylinders := 1024, spt := 63 } } 3 rfl rfl (by decide)
    (by intro i; show (if i = 57 then 108 else 0) < 256; split <;> decide)).2 0 3 2 1 (by decide) (by decide) (by decide)
    (by decide) (by decide)
  rw [h]
  decide

/-- C19: for every physical cylinder count c, the r-echs rescaling with
heads = 16 does not overflow: the stored value is floor(min(c, 61439) * 16
/ 15), it is at most 65535, so the `u16` cast is lossless, and the product
min(c, 61439) * 16 fits in 32 bits; a clip value k keeps k * 16 / 15 within
16 bits exactly when k <= 61439, and 61440 * 16 / 15 = 65536. -/
theorem C19_rechs_rescale_no_overflow (c s : Nat) :
    rechs_adjust { heads := 16, cylinders := c, spt := s } =
      { heads := 15, cylinders := min c 61439 * 16 / 15, spt := s } ∧
    min c 61439 * 16 / 15 ≤ 65535 ∧
    u16 (min c 61439 * 16 / 15) = min c 61439 * 16 / 15 ∧
    u32 (min c 61439 * 16) = min c 61439 * 16 ∧
    (∀ k : Nat, k * 16 / 15 ≤ 65535 ↔ k ≤ 61439) ∧
    61440 * 16 / 15 = 65536 := by
  have hle : min c 61439 ≤ 61439 := Nat.min_le_right _ _
  refine ⟨?_, by omega, u16_of_lt (by omega), u32_of_lt (by omega), ?_, by decide⟩
  · rw [rechs_adjust_eq, if_pos rfl]
  · intro k
    constructor <;> intro h <;> omega

/-- C20: for every 64-bit total sector count n and every physical geometry,
the legacy geometry (C, H, S) that `setup_translation` stores under the LBA
policy has S = 63 and C * H * S <= n: for the code after policy selection
run with the LBA code, and for the geometry stored into every drive record
of n sectors for which `get_translation` selects LBA. In the branch of the
LBA case that is not saturated the `u32` truncation of the sector count
loses nothing: the truncated value is the sector count, and the case
yields the geometry computed from the full sector count. -/
theorem C20_lba_capacity_bound (pchs : chs_s) (n : Nat) (h64 : n < 2 ^ 64) :
    (setup_translation_lchs TRANSLATION_LBA pchs n).spt = 63 ∧
    (setup_translation_lchs TRANSLATION_LBA pchs n).cylinders *
      (setup_translation_lchs TRANSLATION_LBA pchs n).heads *
      (setup_translation_lchs TRANSLATION_LBA pchs n).spt ≤ n ∧
    (¬ (u64 n > 63 * 255 * 1024) → u32 (u64 n) = u64 n) ∧
    (∀ l : chs_s, ¬ (u64 n > 63 * 255 * 1024) →
      u32 (u64 n) = n ∧
      case_lba (u64 n) l =
        { heads := lba_heads (n / 63 / 1024),
          cylinders := n / 63 / lba_heads (n / 63 / 1024),
          spt := 63 }) ∧
    ∀ (coreboot : Bool) (inb_cmos : Nat → Nat) (d : drive_s),
      d.sectors = n → get_translation coreboot inb_cmos d = TRANSLATION_LBA →
      (setup_translation coreboot inb_cmos d).lchs.spt = 63 ∧
      (setup_translation coreboot inb_cmos d).lchs.cylinders *
        (setup_translation coreboot inb_cmos d).lchs.heads *
        (setup_translation coreboot inb_cmos d).lchs.spt ≤ n := by
  have hs : u64 n = n := u64_of_lt (by omega)
  have hmain : ∀ p : chs_s,
      (setup_translation_lchs TRANSLATION_LBA p n).spt = 63 ∧
      (setup_translation_lchs TRANSLATION_LBA p n).cylinders *
        (setup_translation_lchs TRANSLATION_LBA p n).heads *
        (setup_translation_lchs TRANSLATION_LBA p n).spt ≤ n := by
    intro p
    by_cases hbig : 63 * 255 * 1024 < n
    · rw [setup_translation_lchs_lba_big p n hbig h64]
      refine ⟨rfl, ?_⟩
      show 1024 * 255 * 63 ≤ n
      omega
    · have hn : n ≤ 63 * 255 * 1024 := by omega
      rw [setup_translation_lchs_lba_small p n hn]
      refine ⟨rfl, ?_⟩
      show min (n / 63 / lba_heads (n / 63 / 1024)) 1024 * lba_heads (n / 63 / 1024) * 63 ≤ n
      have h1 : min (n / 63 / lba_heads (n / 63 / 1024)) 1024 ≤
          n / 63 / lba_heads (n / 63 / 1024) := Nat.min_le_left _ _
      have h2 : min (n / 63 / lba_heads (n / 63 / 1024)) 1024 * lba_heads (n / 63 / 1024) ≤
          n / 63 / lba_heads (n / 63 / 1024) * lba_heads (n / 63 / 1024) :=
        Nat.mul_le_mul_right _ h1
      have h3 : n / 63 / lba_heads (n / 63 / 1024) * lba_heads (n / 63 / 1024) ≤ n / 63 :=
        Nat.div_mul_le_self _ _
      have h4 : n / 63 * 63 ≤ n := Nat.div_mul_le_self _ _
      have h5 : min (n / 63 / lba_heads (n / 63 / 1024)) 1024 * lba_heads (n / 63 / 1024) * 63 ≤
          n / 63 * 63 := Nat.mul_le_mul_right _ (Nat.le_trans h2 h3)
      exact Nat.le_trans h5 h4
  refine ⟨(hmain pchs).1, (hmain pchs).2, ?_, ?_, ?_⟩
  · intro h
    rw [hs] at h ⊢
    exact u32_of_lt (by omega)
  · intro l h
    rw [hs] at h ⊢
    have hn : n ≤ 63 * 255 * 1024 := by omega
    exact ⟨u32_of_lt (by omega), case_lba_small n hn l⟩
  · intro coreboot inb_cmos d hsec hpol
    rw [setup_translation_lchs_eq, hpol, hsec]
    exact hmain d.pchs

/-- Witness of C20: a disk of 1096641 sectors with physical geometry
(1088, 16, 63) whose nvram field selects LBA: `setup_translation` stores
the legacy geometry (1024, 16, 63), which addresses 1032192 sectors. -/
theorem C20_lba_capacity_bound_witness :
    get_translation false (fun _ => 1)
      { type := 2, cntl_id := 0, translation := 0, sectors := 1096641,
        lchs := { heads := 0, cylinders := 0, spt := 0 },
        pchs := { heads := 16, cylinders := 1088, spt := 63 } } = TRANSLATION_LBA ∧
    (setup_translation false (fun _ => 1)
      { type := 2, cntl_id := 0, translation := 0, sectors := 1096641,
        lchs := { heads := 0, cylinders := 0, spt := 0 },
        pchs := { heads := 16, cylinders := 1088, spt := 63 } }).lchs.spt = 63 ∧
    (setup_translation false (fun _ => 1)
      { type := 2, cntl_id := 0, translation := 0, sectors := 1096641,
        lchs := { heads := 0, cylinders := 0, spt := 0 },
        pchs := { heads := 16, cylinders := 1088, spt := 63 } }).lchs.cylinders *
      (setup_translation false (fun _ => 1)
      { type := 2, cntl_id := 0, translation := 0, sectors := 1096641,
        lchs := { heads := 0, cylinders := 0, spt := 0 },
        pchs := { heads := 16, cylinders := 1088, spt := 63 } }).lchs.heads *
      (setup_translation false (fun _ => 1)
      { type := 2, cntl_id := 0, translation := 0, sectors := 1096641,
        lchs := { heads := 0, cylinders := 0, spt := 0 },
        pchs := { heads := 16, cylinders := 1088, spt := 63 } }).lchs.spt ≤ 1096641 ∧
    case_lba (u64 1096641) { heads := 16, cylinders := 1088, spt := 63 } =
      { heads := 16, cylinders := 1087, spt := 63 } := by
  have hpol : get_translation false (fun _ => 1)
      { type := 2, cntl_id := 0, translation := 0, sectors := 1096641,
        lchs := { heads := 0, cylinders := 0, spt := 0 },
        pchs := { heads := 16, cylinders := 1088, spt := 63 } } = TRANSLATION_LBA := by
    decide
  have h := C20_lba_capacity_bound { heads := 16, cylinders := 1088, spt := 63 } 1096641
    (by decide)
  have hw := h.2.2.2.2 false (fun _ => 1)
    { type := 2, cntl_id := 0, translation := 0, sectors := 1096641,
      lchs := { heads := 0, cylinders := 0, spt := 0 },
      pchs := { heads := 16, cylinders := 1088, spt := 63 } } rfl hpol
  have hc := (h.2.2.2.1 { heads := 16, cylinders := 1088, spt := 63 } (by decide)).2
  refine ⟨hpol, hw.1, hw.2, ?_⟩
  rw [hc]
  decide

end Block
